import Mathlib

/-!
# Backpack exchange client: request signing, REST transport, cancel-all retry, streaming

A shallow embedding of `backpack_interface/backpack_api.go` and
`backpack_websocket/backpack_api_websocket.go`.

Conventions of the embedding

* A Go `string` is a Lean `String`.  Go compares strings byte-wise; on UTF-8 text
  the byte-wise order is the lexicographic order of the code points, which is the
  order `strLt` below.
* A Go `map[string]T` is an association list with pairwise distinct keys
  (`GoMap.WF`).  Go leaves the order of a `range` over a map unspecified, so every
  `range` loop takes a `MapOrder`: an arbitrary re-ordering of the entries.
* A `panic` is the result `none`; a function that cannot panic returns its value
  directly.
* The clock, the HTTP server and the socket are explicit inputs.
-/

namespace Backpack

/-! ## Go strings and maps -/

/-- Go's `a < b` on strings. -/
def strLt (a b : String) : Prop := a.data < b.data

/-- Go's `a <= b` on strings. -/
def strLe (a b : String) : Prop := a.data ≤ b.data

instance strLt.decidable : DecidableRel strLt :=
  fun a b => inferInstanceAs (Decidable (a.data < b.data))

instance strLe.decidable : DecidableRel strLe :=
  fun a b => inferInstanceAs (Decidable (a.data ≤ b.data))

/-- Model of `sort.Strings`: the ascending rearrangement of the slice. -/
def sortStrings (keys : List String) : List String :=
  keys.insertionSort strLe

/-- Model of `strings.Join`. -/
def Join (elems : List String) (sep : String) : String :=
  sep.intercalate elems

/-- A Go `map[string]α`: the entries, in some enumeration order. -/
abbrev GoMap (α : Type) := List (String × α)

namespace GoMap

variable {α : Type}

/-- The keys of the map, in enumeration order. -/
def keys (m : GoMap α) : List String := m.map Prod.fst

/-- A map holds every key at most once. -/
def WF (m : GoMap α) : Prop := m.keys.Nodup

instance WF.decidable (m : GoMap α) : Decidable m.WF :=
  inferInstanceAs (Decidable (m.keys.Nodup))

/-- The two-valued lookup `v, ok := m[k]`. -/
def get? : GoMap α → String → Option α
  | [], _ => none
  | (k', v) :: t, k => if k' = k then some v else get? t k

/-- The assignment `m[k] = v`. -/
def set : GoMap α → String → α → GoMap α
  | [], k, v => [(k, v)]
  | (k', v') :: t, k, v => if k' = k then (k, v) :: t else (k', v') :: set t k v

/-- Go's `len(m)`. -/
def len (m : GoMap α) : Nat := m.length

end GoMap

/-- The one-valued lookup `m[k]` on a `map[string]string`: the zero value `""` when absent. -/
def GoMap.get (m : GoMap String) (k : String) : String := (m.get? k).getD ""

/-- The order in which one `range` loop visits the entries of a map. -/
structure MapOrder where
  /-- The visiting order, given the entries. -/
  run : {α : Type} → List α → List α
  /-- Every entry is visited exactly once. -/
  perm : ∀ {α : Type} (l : List α), (run l).Perm l

/-- Visit the entries as they are stored. -/
def MapOrder.stored : MapOrder := ⟨fun l => l, fun l => List.Perm.refl l⟩

/-- Visit the entries back to front. -/
def MapOrder.reversed : MapOrder := ⟨fun l => l.reverse, fun l => List.reverse_perm l⟩

/-! ## Request parameters and `convertMap` -/

/-- A value of a parameter map (`interface{}`): a `string`, an `int`, or a value of any other
type, which is kept as the text that `fmt.Sprintf("%v", value)` prints for it. -/
inductive Value where
  | str (s : String)
  | int (n : Int)
  | other (text : String)
  deriving DecidableEq, Repr

/-- Model of `strconv.Itoa` and of `fmt.Sprintf("%d", n)`: the decimal representation. -/
def Itoa (n : Int) : String :=
  if n < 0 then "-" ++ Nat.repr n.natAbs else Nat.repr n.natAbs

/-- The `switch v := value.(type)` of `convertMap`. -/
def convertValue : Value → String
  | .str v => v
  | .int v => Itoa v
  | .other text => text

/-- The function `convertMap`: a fresh map with every value turned into a string. -/
def convertMap (ord : MapOrder) (mapInterface : GoMap Value) : GoMap String :=
  (ord.run mapInterface).foldl (fun mapString kv => GoMap.set mapString kv.1 (convertValue kv.2)) []

/-! ## Signing -/

/-- The fixed validity window. -/
def window : String := "10000"

/-- The timestamp: `fmt.Sprintf("%d", time.Now().UnixNano()/int64(time.Millisecond))`, with `now` the
clock reading in nanoseconds. -/
def timestampOf (now : Int) : String := Itoa (Int.tdiv now 1000000)

/-- The map `data` of `generateSignature`, after its four groups of assignments. -/
def signData (ord : Nat → MapOrder) (instruction timestamp : String) (payload : GoMap Value) :
    GoMap String :=
  let payloadString := convertMap (ord 0) payload
  let data : GoMap String := GoMap.set [] "instruction" instruction
  let data := ((ord 1).run payloadString).foldl (fun d kv => GoMap.set d kv.1 kv.2) data
  let data := GoMap.set data "timestamp" timestamp
  GoMap.set data "window" window

/-- The string `signString` of `generateSignature`: the keys of `data` are collected by a `range`,
sorted, and joined as `key=value` with `&`. -/
def signString (ord : Nat → MapOrder) (instruction timestamp : String) (payload : GoMap Value) :
    String :=
  let data := signData ord instruction timestamp payload
  let keys := sortStrings (((ord 2).run data).map Prod.fst)
  let sortedData := keys.map (fun k => k ++ "=" ++ GoMap.get data k)
  Join sortedData "&"

/-! ## Base64 and Ed25519 (library models) -/

/-- The value of a character of the standard base64 alphabet. -/
def b64Value (c : Char) : Option Nat :=
  let n := c.toNat
  if 65 ≤ n ∧ n ≤ 90 then some (n - 65)
  else if 97 ≤ n ∧ n ≤ 122 then some (n - 97 + 26)
  else if 48 ≤ n ∧ n ≤ 57 then some (n - 48 + 52)
  else if n = 43 then some 62
  else if n = 47 then some 63
  else none

/-- Decoding of the 4-character groups: a full group gives three bytes, a last group `xx==`
one byte and a last group `xxx=` two bytes; anything else is corrupt input. -/
def decodeQuanta : List Char → Option (List Nat)
  | [] => some []
  | [a, b, c, d] =>
    if c = '=' ∧ d = '=' then
      match b64Value a, b64Value b with
      | some x, some y => some [(x * 4 + y / 16) % 256]
      | _, _ => none
    else if d = '=' then
      match b64Value a, b64Value b, b64Value c with
      | some x, some y, some z => some [(x * 4 + y / 16) % 256, (y * 16 + z / 4) % 256]
      | _, _, _ => none
    else
      match b64Value a, b64Value b, b64Value c, b64Value d with
      | some x, some y, some z, some w =>
        some [(x * 4 + y / 16) % 256, (y * 16 + z / 4) % 256, (z * 64 + w) % 256]
      | _, _, _, _ => none
  | a :: b :: c :: d :: rest =>
    match b64Value a, b64Value b, b64Value c, b64Value d, decodeQuanta rest with
    | some x, some y, some z, some w, some bytes =>
      some ((x * 4 + y / 16) % 256 :: (y * 16 + z / 4) % 256 :: (z * 64 + w) % 256 :: bytes)
    | _, _, _, _, _ => none
  | _ => none

/-- Model of `base64.StdEncoding.DecodeString`: standard alphabet, `=` padding, carriage returns
and line feeds skipped; `none` is the returned error. -/
def base64Decode (s : String) : Option (List Nat) :=
  decodeQuanta (s.data.filter (fun c => c.toNat ≠ 13 ∧ c.toNat ≠ 10))

/-- The character of a 6-bit value in the standard base64 alphabet. -/
def b64Char (n : Nat) : Char :=
  ("ABCDEFGHIJKLMNOPQRSTUVWXYZabcdefghijklmnopqrstuvwxyz0123456789+/".data).getD n 'A'

/-- Encoding of the 3-byte groups, the last one padded with `=`. -/
def encodeQuanta : List Nat → List Char
  | [] => []
  | [a] => [b64Char (a / 4), b64Char (a % 4 * 16), '=', '=']
  | [a, b] => [b64Char (a / 4), b64Char (a % 4 * 16 + b / 16), b64Char (b % 16 * 4), '=']
  | a :: b :: c :: rest =>
    b64Char (a / 4) :: b64Char (a % 4 * 16 + b / 16) :: b64Char (b % 16 * 4 + c / 64) ::
      b64Char (c % 64) :: encodeQuanta rest

/-- Model of `base64.StdEncoding.EncodeToString`. -/
def base64Encode (bytes : List Nat) : String := ⟨encodeQuanta bytes⟩

/-- The length `ed25519.PrivateKeySize`. -/
def PrivateKeySize : Nat := 64

/-- Model of `ed25519.Sign`: it panics when the private key does not have `PrivateKeySize`
bytes; the signature arithmetic itself is the parameter `sig`. -/
def ed25519Sign (sig : List Nat → String → List Nat) (privateKey : List Nat) (message : String) :
    Option (List Nat) :=
  if privateKey.length = PrivateKeySize then some (sig privateKey message) else none

/-- The function `generateSignature` of `backpack_api.go`: the four signature headers, or
`none` when it panics.  `now` is the reading of the clock, `ord n` the order of its `n`-th `range`
loop. -/
def generateSignature (sig : List Nat → String → List Nat) (ord : Nat → MapOrder) (now : Int)
    (instruction apikey secret : String) (payload : GoMap Value) : Option (GoMap String) :=
  let timestamp := timestampOf now
  let signString := signString ord instruction timestamp payload
  match base64Decode secret with
  | none => none
  | some privateKeyBytes =>
    match ed25519Sign sig privateKeyBytes signString with
    | none => none
    | some signature =>
      let signatureB64 := base64Encode signature
      some [("X-API-Key", apikey), ("X-Signature", signatureB64), ("X-Timestamp", timestamp),
        ("X-Window", window)]

/-! ## JSON values and the REST transport -/

/-- A JSON value.  A number is kept as the integer it denotes when it is written without
fraction and exponent, and as its text otherwise.  The same type carries the `interface{}`
values that `encoding/json` decodes into. -/
inductive JSON where
  | null
  | bool (b : Bool)
  | int (n : Int)
  | real (text : String)
  | str (s : String)
  | arr (items : List JSON)
  | obj (members : List (String × JSON))
  deriving Repr

/-- The dynamic types that occur in the program. -/
inductive GoType where
  | nil | bool | float64 | string | slice | map | int32 | int64 | uint32
  deriving DecidableEq, Repr

/-- The dynamic type of a decoded `interface{}`: `encoding/json` stores every number as a
`float64`. -/
def JSON.typeOf : JSON → GoType
  | .null => .nil
  | .bool _ => .bool
  | .int _ => .float64
  | .real _ => .float64
  | .str _ => .string
  | .arr _ => .slice
  | .obj _ => .map

/-- A JSON object decoded into a `map[string]interface{}`: a repeated key keeps its last value. -/
def decodeObject (members : List (String × JSON)) : GoMap JSON :=
  members.foldl (fun m kv => GoMap.set m kv.1 kv.2) []

/-- The type assertion `x.(T)` on the result of a map lookup (`none`: the key is absent, the
value is the nil interface); `none` is the panic of a failed assertion. -/
def typeAssert (x : Option JSON) (t : GoType) : Option JSON :=
  match x with
  | some v => if v.typeOf = t then some v else none
  | none => none

/-- The type assertion `values.(map[string]interface{})`. -/
def assertMap : JSON → Option (GoMap JSON)
  | .obj members => some (decodeObject members)
  | _ => none

/-- The comparison `x == "fail"` of an `interface{}` with a string. -/
def isFail : Option JSON → Bool
  | some (.str s) => s = "fail"
  | _ => false

/-- A returned `error` value (`none` is `nil`). -/
abbrev Err := Option String

/-- An HTTP request as the transport builds it. -/
structure Request where
  method : String
  url : String
  header : GoMap String
  query : GoMap String
  body : Option (GoMap Value)

/-- What `client.Do` and the decoding of the body can meet: a transport error, a body that is
not JSON text, or a JSON value. -/
inductive Reply where
  | netError
  | garbage
  | json (v : JSON)

/-- The exchange, as seen by the client: the reply to a request, given how many requests were
sent before it. -/
abbrev Server := Nat → Request → Reply

def baseURL : String := "https://api.backpack.exchange"

def contentType : String := "application/json; charset=utf-8"

/-- The decoding `json.NewDecoder(resp.Body).Decode(&result)` into a
`map[string]interface{}`: `null` leaves the map nil, an object fills it, any other value is an
error (`none`). -/
def decodeBody : JSON → Option (Option (GoMap JSON))
  | .null => some none
  | .obj members => some (some (decodeObject members))
  | _ => none

/-- The shared tail of the three request functions: `client.Do(req)` and the decoding of the
body.  Every error panics (`none`); the request is appended to the requests sent. -/
def doRequest (server : Server) (sent : List Request) (req : Request) :
    Option (Option (GoMap JSON) × Err) × List Request :=
  match server sent.length req with
  | .netError => (none, sent ++ [req])
  | .garbage => (none, sent ++ [req])
  | .json v =>
    match decodeBody v with
    | none => (none, sent ++ [req])
    | some result => (some (result, none), sent ++ [req])

/-- The headers of a request: `Content-Type`, then every entry of `head`. -/
def requestHeader (ord : MapOrder) (head : GoMap String) : GoMap String :=
  (ord.run head).foldl (fun h kv => GoMap.set h kv.1 kv.2) (GoMap.set [] "Content-Type" contentType)

/-- The function `getRequest`: the parameters become the query. -/
def getRequest (ord : Nat → MapOrder) (server : Server) (sent : List Request) (url : String)
    (head : GoMap String) (params : GoMap Value) :
    Option (Option (GoMap JSON) × Err) × List Request :=
  let reqURL := baseURL ++ url
  let paramString := convertMap (ord 0) params
  let header := requestHeader (ord 1) head
  let q := ((ord 2).run paramString).foldl (fun q kv => GoMap.set q kv.1 kv.2) []
  doRequest server sent ⟨"GET", reqURL, header, q, none⟩

/-- The function `postRequest`: the parameters become the JSON body; `proxy` is not used. -/
def postRequest (ord : Nat → MapOrder) (server : Server) (sent : List Request) (url : String)
    (head : GoMap String) (_proxy : GoMap String) (params : GoMap Value) :
    Option (Option (GoMap JSON) × Err) × List Request :=
  let reqURL := baseURL ++ url
  let header := requestHeader (ord 0) head
  doRequest server sent ⟨"POST", reqURL, header, [], some params⟩

/-- The function `deleteRequest`: the parameters become the JSON body; `proxy` is not used. -/
def deleteRequest (ord : Nat → MapOrder) (server : Server) (sent : List Request) (url : String)
    (head : GoMap String) (_proxy : GoMap String) (params : GoMap Value) :
    Option (Option (GoMap JSON) × Err) × List Request :=
  let reqURL := baseURL ++ url
  let header := requestHeader (ord 0) head
  doRequest server sent ⟨"DELETE", reqURL, header, [], some params⟩

/-! ## Endpoint operations -/

structure Key where
  apiKey : String
  secret : String

structure DepositeHistory where
  key : Key
  limit : Int
  offset : Int

structure RequestWithdraw where
  key : Key
  address : String
  blockchain : String
  clientId : String
  quantity : String
  symbol : String
  twoFactorToken : String
  subaccountId : String

structure CancelTokenOrder where
  key : Key
  clientId : Int
  orderId : String
  symbol : String

/-- The failure test on a decoded body, written `status, ok := data["status"]; ok && status == "fail"`
in some operations and `data != nil && data["status"] == "fail"` in the others: a nil map has no
`status`, so both hold exactly when the map has the string `"fail"` under `status`. -/
def statusFail (data : Option (GoMap JSON)) : Bool :=
  match data with
  | none => false
  | some m => isFail (m.get? "status")

/-- The entries of a possibly nil map, as a `range` and `len` see them. -/
def entriesOf (data : Option (GoMap JSON)) : GoMap JSON := data.getD []

/-- A record literal `{name: v[key].(T), ...}`, given as the list of its `(name, key, T)`; the
first failed assertion panics (`none`). -/
def reshapeRecord (v : GoMap JSON) : List (String × String × GoType) → Option (GoMap JSON)
  | [] => some []
  | (name, key, t) :: rest =>
    match typeAssert (v.get? key) t with
    | none => none
    | some x =>
      match reshapeRecord v rest with
      | none => none
      | some record => some ((name, x) :: record)

/-- The reshaping loop `for _, values := range data { v := values.(map[string]interface{}); ...;
rst = append(rst, assetInfo) }` over the visited entries. -/
def reshapeLoop (fields : List (String × String × GoType)) :
    List (String × JSON) → List (Option (GoMap JSON)) → Option (List (Option (GoMap JSON)))
  | [], rst => some rst
  | (_, values) :: rest, rst =>
    match assertMap values with
    | none => none
    | some v =>
      match reshapeRecord v fields with
      | none => none
      | some assetInfo => reshapeLoop fields rest (rst ++ [some assetInfo])

/-- The record literal of `getDepositeHistory`. -/
def depositFields : List (String × String × GoType) :=
  [("id", "id", .int32), ("toAddress", "toAddress", .string),
   ("fromAddress", "fromAddress", .string),
   ("confirmationBlockNumber", "confirmationBlockNumber", .int64),
   ("providerId", "providerId", .string), ("source", "source", .string),
   ("status", "status", .string), ("transactionHash", "transactionHash", .string),
   ("subaccountId", "subaccountId", .int32), ("symbol", "symbol", .string),
   ("quantity", "quantity", .string), ("createdAt", "createdAt", .string)]

/-- The record literal of `getTokenOpenAllOrders`. -/
def openOrderFields : List (String × String × GoType) :=
  [("orderType", "orderType", .string), ("id", "id", .string), ("clientId", "clientId", .uint32),
   ("symbol", "symbol", .string), ("side", "side", .string), ("quantity", "quantity", .string),
   ("executedQuantity", "executedQuantity", .string), ("quoteQuantity", "quoteQuantity", .string),
   ("executedQuoteQuantity", "executedQuoteQuantity", .string),
   ("triggerPrice", "triggerPrice", .string), ("timeInForce", "timeInForce", .string),
   ("selfTradePrevention", "selfTradePrevention", .string), ("status", "status", .string),
   ("createdAt", "createdAt", .int64)]

/-- The function `getDepositeHistory`.  The result is `none` when the call panics; the second
component is the list of requests sent. -/
def getDepositeHistory (sig : List Nat → String → List Nat) (ord : Nat → MapOrder) (now : Int)
    (server : Server) (sent : List Request) (DE : DepositeHistory) :
    Option (Option (List (Option (GoMap JSON))) × Err) × List Request :=
  let url := "/wapi/v1/capital/deposits"
  let params : GoMap Value := [("limit", .int DE.limit), ("offset", .int DE.offset)]
  match generateSignature sig ord now "depositQueryAll" DE.key.apiKey DE.key.secret params with
  | none => (none, sent)
  | some headers =>
    match getRequest (fun n => ord (n + 3)) server sent url headers params with
    | (none, sent) => (none, sent)
    | (some (_, some _), sent) => (none, sent)
    | (some (data, none), sent) =>
      if statusFail data then (some (none, none), sent)
      else
        let rst := List.replicate (entriesOf data).len none
        match reshapeLoop depositFields ((ord 6).run (entriesOf data)) rst with
        | none => (none, sent)
        | some rst => (some (some rst, none), sent)

/-- The function `getTokenOpenAllOrders`: the only operation without a failure test between the
request and the reshaping. -/
def getTokenOpenAllOrders (sig : List Nat → String → List Nat) (ord : Nat → MapOrder) (now : Int)
    (server : Server) (sent : List Request) (key : Key) (symbol : String) :
    Option (Option (List (Option (GoMap JSON))) × Err) × List Request :=
  let url := "/api/v1/orders"
  let params : GoMap Value := [("symbol", .str symbol)]
  match generateSignature sig ord now "orderQueryAll" key.apiKey key.secret params with
  | none => (none, sent)
  | some headers =>
    match getRequest (fun n => ord (n + 3)) server sent url headers params with
    | (none, sent) => (none, sent)
    | (some (_, some _), sent) => (none, sent)
    | (some (data, none), sent) =>
      let rst := List.replicate (entriesOf data).len none
      match reshapeLoop openOrderFields ((ord 6).run (entriesOf data)) rst with
      | none => (none, sent)
      | some rst => (some (some rst, none), sent)

/-- The function `requestWithdrawal`: `postRequest(url, head, nil, params)`. -/
def requestWithdrawal (sig : List Nat → String → List Nat) (ord : Nat → MapOrder) (now : Int)
    (server : Server) (sent : List Request) (rw : RequestWithdraw) :
    Option (Option (GoMap JSON) × Err) × List Request :=
  let url := "/wapi/v1/capital/withdrawals"
  let params : GoMap Value :=
    [("address", .str rw.address), ("blockchain", .str rw.blockchain),
     ("clientId", .str rw.clientId), ("quantity", .str rw.quantity), ("symbol", .str rw.symbol),
     ("twoFactorToken", .str rw.twoFactorToken)]
  match generateSignature sig ord now "withdraw" rw.key.apiKey rw.key.secret params with
  | none => (none, sent)
  | some head =>
    match postRequest (fun n => ord (n + 3)) server sent url head [] params with
    | (none, sent) => (none, sent)
    | (some (_, some _), sent) => (none, sent)
    | (some (data, none), sent) =>
      if statusFail data then (some (none, none), sent) else (some (data, none), sent)

/-- The copy `for key, value := range params { paramsInterface[key] = value }`. -/
def copyParams (ord : MapOrder) (params : GoMap Value) : GoMap Value :=
  (ord.run params).foldl (fun m kv => GoMap.set m kv.1 kv.2) []

/-- The function `cancelOpenOrder`: `deleteRequest(url, nil, head, paramsInterface)`, so the
header argument of `deleteRequest` is nil and the signature headers are its `proxy`. -/
def cancelOpenOrder (sig : List Nat → String → List Nat) (ord : Nat → MapOrder) (now : Int)
    (server : Server) (sent : List Request) (CTO : CancelTokenOrder) :
    Option (Option (GoMap JSON) × Err) × List Request :=
  let url := "/api/v1/order"
  let params : GoMap Value :=
    [("clientId", .int CTO.clientId), ("orderId", .str CTO.orderId), ("symbol", .str CTO.symbol)]
  match generateSignature sig ord now "orderCancel" CTO.key.apiKey CTO.key.secret params with
  | none => (none, sent)
  | some head =>
    let paramsInterface := copyParams (ord 3) params
    match deleteRequest (fun n => ord (n + 4)) server sent url [] head paramsInterface with
    | (none, sent) => (none, sent)
    | (some (_, some _), sent) => (none, sent)
    | (some (data, none), sent) =>
      if statusFail data then (some (none, none), sent) else (some (data, none), sent)

/-- The retry loop of `cancelOpenOrders`, entered with the current `count`:
`deleteRequest(url, proxy, head, paramsInterface)` until a body is not a failure or `count > 3`. -/
def cancelOpenOrders.loop (ord : Nat → MapOrder) (server : Server) (url : String)
    (proxy head : GoMap String) (paramsInterface : GoMap Value) (count : Nat)
    (sent : List Request) : Option (Option (GoMap JSON) × Err) × List Request :=
  if _h : count > 3 then (some (none, none), sent)
  else
    match deleteRequest ord server sent url proxy head paramsInterface with
    | (none, sent) => (none, sent)
    | (some (_, some err), sent) => (some (none, some err), sent)
    | (some (data, none), sent) =>
      if statusFail data then
        cancelOpenOrders.loop ord server url proxy head paramsInterface (count + 1) sent
      else (some (data, none), sent)
termination_by 4 - count
decreasing_by omega

/-- The function `cancelOpenOrders`. -/
def cancelOpenOrders (sig : List Nat → String → List Nat) (ord : Nat → MapOrder) (now : Int)
    (server : Server) (sent : List Request) (key : Key) (symbol : String)
    (proxy : GoMap String) : Option (Option (GoMap JSON) × Err) × List Request :=
  let url := "/api/v1/orders"
  let params : GoMap Value := [("symbol", .str symbol)]
  match generateSignature sig ord now "orderCancelAll" key.apiKey key.secret params with
  | none => (none, sent)
  | some head =>
    let paramsInterface := copyParams (ord 3) params
    cancelOpenOrders.loop (fun n => ord (n + 4)) server url proxy head paramsInterface 0 sent

/-- A reply whose decoded body carries the failure status. -/
def failedReply : Reply → Bool
  | .json v =>
    match decodeBody v with
    | some data => statusFail data
    | none => false
  | _ => false

/-- The request that `cancelOpenOrders` sends on every attempt. -/
def cancelAllRequest (ord : Nat → MapOrder) (symbol : String) (proxy : GoMap String) : Request :=
  ⟨"DELETE", baseURL ++ "/api/v1/orders", requestHeader (ord 4) proxy, [],
    some (copyParams (ord 3) [("symbol", .str symbol)])⟩

/-! ## Streaming session -/

/-- The struct `OrderUpdate`; the `json` tag of each field is in `orderUpdateFields`. -/
structure OrderUpdate where
  Event : String
  EventTime : Int
  Symbol : String
  ClientOrderID : String
  Side : String
  OrderType : String
  TimeInForce : String
  Quantity : String
  QuoteQuantity : String
  Price : String
  TriggerPrice : String
  OrderState : String
  OrderID : String
  TradeID : String
  FillQuantity : String
  ExecutedQty : String
  ExecutedQtyQ : String
  FillPrice : String
  IsMaker : Bool
  Fee : String
  FeeSymbol : String
  SelfTradePrev : String
  EngineTime : Int
  deriving DecidableEq, Repr

/-- The zero value of `OrderUpdate`, which `var orderUpdate OrderUpdate` declares. -/
def OrderUpdate.zero : OrderUpdate :=
  ⟨"", 0, "", "", "", "", "", "", "", "", "", "", "", "", "", "", "", "", false, "", "", "", 0⟩

/-- The Go types of the fields of `OrderUpdate`. -/
inductive Kind where
  | string | int64 | bool
  deriving DecidableEq, Repr

/-- The `json` tags of `OrderUpdate` with the type of their field, in declaration order. -/
def orderUpdateFields : List (String × Kind) :=
  [("e", .string), ("E", .int64), ("s", .string), ("c", .string), ("S", .string),
   ("o", .string), ("f", .string), ("q", .string), ("Q", .string), ("p", .string),
   ("P", .string), ("X", .string), ("i", .string), ("t", .string), ("l", .string),
   ("z", .string), ("Z", .string), ("L", .string), ("m", .bool), ("n", .string),
   ("N", .string), ("V", .string), ("T", .int64)]

/-- Assignment to the `string` field with the given tag. -/
def OrderUpdate.setString (u : OrderUpdate) (tag : String) (v : String) : OrderUpdate :=
  if tag = "e" then { u with Event := v }
  else if tag = "s" then { u with Symbol := v }
  else if tag = "c" then { u with ClientOrderID := v }
  else if tag = "S" then { u with Side := v }
  else if tag = "o" then { u with OrderType := v }
  else if tag = "f" then { u with TimeInForce := v }
  else if tag = "q" then { u with Quantity := v }
  else if tag = "Q" then { u with QuoteQuantity := v }
  else if tag = "p" then { u with Price := v }
  else if tag = "P" then { u with TriggerPrice := v }
  else if tag = "X" then { u with OrderState := v }
  else if tag = "i" then { u with OrderID := v }
  else if tag = "t" then { u with TradeID := v }
  else if tag = "l" then { u with FillQuantity := v }
  else if tag = "z" then { u with ExecutedQty := v }
  else if tag = "Z" then { u with ExecutedQtyQ := v }
  else if tag = "L" then { u with FillPrice := v }
  else if tag = "n" then { u with Fee := v }
  else if tag = "N" then { u with FeeSymbol := v }
  else if tag = "V" then { u with SelfTradePrev := v }
  else u

/-- Assignment to the `int64` field with the given tag. -/
def OrderUpdate.setInt64 (u : OrderUpdate) (tag : String) (v : Int) : OrderUpdate :=
  if tag = "E" then { u with EventTime := v }
  else if tag = "T" then { u with EngineTime := v }
  else u

/-- Assignment to the `bool` field with the given tag. -/
def OrderUpdate.setBool (u : OrderUpdate) (tag : String) (v : Bool) : OrderUpdate :=
  if tag = "m" then { u with IsMaker := v } else u

/-- Simple case folding of a character, as far as it can meet an ASCII letter: the capital letters,
the Kelvin sign and the long s. -/
def foldRune (c : Char) : Char :=
  let n := c.toNat
  if 65 ≤ n ∧ n ≤ 90 then Char.ofNat (n + 32)
  else if n = 0x212A then 'k'
  else if n = 0x17F then 's'
  else c

/-- The case-insensitive comparison of an object key with a tag made of ASCII letters. -/
def equalFold (tag key : String) : Bool :=
  key.data.map foldRune = tag.data.map foldRune

/-- The field that `encoding/json` stores the member `key` in: the field whose tag is `key`, or
else the first field whose tag equals `key` up to case; `none` when the member is skipped. -/
def findField (key : String) : Option (String × Kind) :=
  match orderUpdateFields.find? (fun f => f.1 = key) with
  | some f => some f
  | none => orderUpdateFields.find? (fun f => equalFold f.1 key)

/-- Storing one member value in a field: `null` leaves the field as it is, a value of the
field's type is assigned (an integer only when it fits 64 bits), any other value is an
unmarshalling error (`none`). -/
def decodeValue (u : OrderUpdate) (f : String × Kind) (v : JSON) : Option OrderUpdate :=
  match v, f.2 with
  | .null, _ => some u
  | .str s, .string => some (u.setString f.1 s)
  | .int n, .int64 =>
    if -9223372036854775808 ≤ n ∧ n ≤ 9223372036854775807 then some (u.setInt64 f.1 n) else none
  | .bool b, .bool => some (u.setBool f.1 b)
  | _, _ => none

/-- The members of an object, stored one after the other. -/
def decodeMembers : List (String × JSON) → OrderUpdate → Option OrderUpdate
  | [], u => some u
  | (key, v) :: rest, u =>
    match findField key with
    | none => decodeMembers rest u
    | some f =>
      match decodeValue u f v with
      | none => none
      | some u => decodeMembers rest u

/-- The bytes of a frame: not JSON text, or the text of a JSON value. -/
inductive Message where
  | malformed (raw : String)
  | value (v : JSON)

/-- Model of `json.Unmarshal(message, &orderUpdate)`; `none` is a returned error. -/
def Unmarshal (message : Message) (orderUpdate : OrderUpdate) : Option OrderUpdate :=
  match message with
  | .malformed _ => none
  | .value .null => some orderUpdate
  | .value (.obj members) => decodeMembers members orderUpdate
  | .value _ => none

/-- What a run of the streaming code does, in order: a line written to the log, a call of the
order-update callback, a write deadline set on the connection, a value handed to `WriteJSON`,
the connection closed. -/
inductive Event where
  | log (message : Message)
  | callback (orderUpdate : OrderUpdate)
  | setWriteDeadline (t : Int)
  | writeJSON (v : JSON)
  | close

/-- How a run ends: it returns, it panics, or it waits for a frame that never comes. -/
inductive Status where
  | returned | panicked | blocked
  deriving DecidableEq, Repr

/-- The function `handleMessage`; the call `callback(orderUpdate)` is the event
`Event.callback orderUpdate`. -/
def handleMessage (message : Message) : List Event × Status :=
  match Unmarshal message OrderUpdate.zero with
  | none => ([], .panicked)
  | some orderUpdate => ([.callback orderUpdate], .returned)

/-- What one turn of the inbound loop meets: `done` is closed, a frame is read, or the read
fails. -/
inductive Tick where
  | done
  | message (m : Message)
  | readError

/-- The method `ListenAndServe`, run against the turns the environment offers: each frame read is
written to the log.  The deferred `conn.Close()` runs when the method returns or panics. -/
def ListenAndServe : List Tick → List Event × Status
  | [] => ([], .blocked)
  | .done :: _ => ([.close], .returned)
  | .readError :: _ => ([.close], .panicked)
  | .message m :: rest =>
    let (events, status) := ListenAndServe rest
    (.log m :: events, status)

/-- The order-update events of the callback calls in a run, in order. -/
def callbackCalls : List Event → List OrderUpdate
  | [] => []
  | .callback u :: rest => u :: callbackCalls rest
  | _ :: rest => callbackCalls rest

/-- The frames written to the log in a run, in order. -/
def logged : List Event → List Message
  | [] => []
  | .log m :: rest => m :: logged rest
  | _ :: rest => logged rest

/-- The constant `readWait`, in nanoseconds. -/
def readWait : Int := 3 * 1000000000

/-- The anonymous struct of `Subscribe` and `Unsubscribe`. -/
structure ControlFrame where
  Method : String
  Params : List String

/-- The JSON value of a control frame, by its `json` tags `method` and `params`. -/
def ControlFrame.toJSON (data : ControlFrame) : JSON :=
  .obj [("method", .str data.Method), ("params", .arr (data.Params.map JSON.str))]

/-- The method `sendJSON`: the write deadline, then `WriteJSON`, whose error (`writeErr`) is
returned. -/
def sendJSON (now : Int) (writeErr : Err) (data : JSON) : List Event × Err :=
  ([.setWriteDeadline (now + readWait), .writeJSON data], writeErr)

/-- The method `Subscribe`. -/
def Subscribe (now : Int) (writeErr : Err) (stream : String) : List Event × Err :=
  let data : ControlFrame := ⟨"SUBSCRIBE", [stream]⟩
  sendJSON now writeErr data.toJSON

/-- The method `Unsubscribe`. -/
def Unsubscribe (now : Int) (writeErr : Err) (stream : String) : List Event × Err :=
  let data : ControlFrame := ⟨"UNSUBSCRIBE", [stream]⟩
  sendJSON now writeErr data.toJSON

/-- A hexadecimal digit. -/
def hexDigit (n : Nat) : Char := ("0123456789abcdef".data).getD n '0'

/-- The backslash. -/
def backslash : Char := Char.ofNat 92

/-- The quotation mark, as a string. -/
def quoteMark : String := String.singleton (Char.ofNat 34)

/-- The text of one character inside a JSON string, as `encoding/json` writes it: the quotation
mark and the backslash behind a backslash, the line feed, carriage return and tab as `\n`, `\r`,
`\t`, the other control characters and `<`, `>`, `&`, U+2028, U+2029 as `\u` escapes. -/
def escapeChar (c : Char) : List Char :=
  let n := c.toNat
  if n = 34 ∨ n = 92 then [backslash, c]
  else if n = 10 then [backslash, 'n']
  else if n = 13 then [backslash, 'r']
  else if n = 9 then [backslash, 't']
  else if n < 32 ∨ n = 60 ∨ n = 62 ∨ n = 38 then
    [backslash, 'u', '0', '0', hexDigit (n / 16), hexDigit (n % 16)]
  else if n = 0x2028 then [backslash, 'u', '2', '0', '2', '8']
  else if n = 0x2029 then [backslash, 'u', '2', '0', '2', '9']
  else [c]

/-- The text of a JSON string. -/
def quote (s : String) : String := quoteMark ++ ⟨s.data.flatMap escapeChar⟩ ++ quoteMark

mutual
/-- The compact text of a JSON value, as written on the wire. -/
def JSON.render : JSON → String
  | .null => "null"
  | .bool b => if b then "true" else "false"
  | .int n => Itoa n
  | .real text => text
  | .str s => quote s
  | .arr items => "[" ++ JSON.renderItems items ++ "]"
  | .obj members => "\x7b" ++ JSON.renderMembers members ++ "\x7d"
/-- The elements of an array, separated by commas. -/
def JSON.renderItems : List JSON → String
  | [] => ""
  | [x] => JSON.render x
  | x :: y :: rest => JSON.render x ++ "," ++ JSON.renderItems (y :: rest)
/-- The members of an object, separated by commas. -/
def JSON.renderMembers : List (String × JSON) → String
  | [] => ""
  | [(k, v)] => quote k ++ ":" ++ JSON.render v
  | (k, v) :: m :: rest => quote k ++ ":" ++ JSON.render v ++ "," ++ JSON.renderMembers (m :: rest)
end

/-! ## The short-code table of the order-update frame, as specified -/

/-- The last value that is not `null` among the members with the given key. -/
def lastValue : List (String × JSON) → String → Option JSON
  | [], _ => none
  | (k, v) :: rest, key =>
    match lastValue rest key with
    | some x => some x
    | none =>
      if k = key then
        match v with
        | .null => none
        | x => some x
      else none

/-- A string field: the string found under its key, or else the default. -/
def stringOr (d : String) : Option JSON → String
  | some (.str s) => s
  | _ => d

/-- An integer field: the integer found under its key, or else the default. -/
def intOr (d : Int) : Option JSON → Int
  | some (.int n) => n
  | _ => d

/-- A boolean field: the boolean found under its key, or else the default. -/
def boolOr (d : Bool) : Option JSON → Bool
  | some (.bool b) => b
  | _ => d

/-- The order update that the short-code table assigns to the members of a frame, starting from
`u`: every field is read from its own key (`e` event type, `E` event time, `s` symbol, `c` client
order id, `S` side, `o` order type, `f` time in force, `q` quantity, `Q` quote quantity, `p` price,
`P` trigger price, `X` order state, `i` order id, `t` trade id, `l` fill quantity, `z` executed
quantity, `Z` executed quote quantity, `L` fill price, `m` maker flag, `n` fee, `N` fee symbol,
`V` self-trade prevention, `T` engine timestamp) and keeps the value of `u` when the key is
absent. -/
def OrderUpdate.overlay (u : OrderUpdate) (members : List (String × JSON)) : OrderUpdate where
  Event := stringOr u.Event (lastValue members "e")
  EventTime := intOr u.EventTime (lastValue members "E")
  Symbol := stringOr u.Symbol (lastValue members "s")
  ClientOrderID := stringOr u.ClientOrderID (lastValue members "c")
  Side := stringOr u.Side (lastValue members "S")
  OrderType := stringOr u.OrderType (lastValue members "o")
  TimeInForce := stringOr u.TimeInForce (lastValue members "f")
  Quantity := stringOr u.Quantity (lastValue members "q")
  QuoteQuantity := stringOr u.QuoteQuantity (lastValue members "Q")
  Price := stringOr u.Price (lastValue members "p")
  TriggerPrice := stringOr u.TriggerPrice (lastValue members "P")
  OrderState := stringOr u.OrderState (lastValue members "X")
  OrderID := stringOr u.OrderID (lastValue members "i")
  TradeID := stringOr u.TradeID (lastValue members "t")
  FillQuantity := stringOr u.FillQuantity (lastValue members "l")
  ExecutedQty := stringOr u.ExecutedQty (lastValue members "z")
  ExecutedQtyQ := stringOr u.ExecutedQtyQ (lastValue members "Z")
  FillPrice := stringOr u.FillPrice (lastValue members "L")
  IsMaker := boolOr u.IsMaker (lastValue members "m")
  Fee := stringOr u.Fee (lastValue members "n")
  FeeSymbol := stringOr u.FeeSymbol (lastValue members "N")
  SelfTradePrev := stringOr u.SelfTradePrev (lastValue members "V")
  EngineTime := intOr u.EngineTime (lastValue members "T")

/-- A value that a field of the given type accepts: `null`, or a value of that type (an integer
only within the range of `int64`). -/
def typedValue : Kind → JSON → Bool
  | _, .null => true
  | .string, .str _ => true
  | .int64, .int n => decide (-9223372036854775808 ≤ n ∧ n ≤ 9223372036854775807)
  | .bool, .bool _ => true
  | _, _ => false

/-- A member the short-code table covers: its key is a short code and its value is accepted by
the field of that code, or its key equals no short code even up to case. -/
def typedMember (kv : String × JSON) : Bool :=
  match orderUpdateFields.find? (fun f => f.1 = kv.1) with
  | some f => typedValue f.2 kv.2
  | none => orderUpdateFields.all (fun f => !equalFold f.1 kv.1)

/-- The frames read by the inbound loop before it stops. -/
def framesRead : List Tick → List Message
  | .message m :: rest => m :: framesRead rest
  | _ => []

/-! ## Sample inputs -/

/-- A signer that returns 64 zero bytes. -/
def sampleSig : List Nat → String → List Nat := fun _ _ => List.replicate 64 0

/-- Every `range` loop visits the entries as stored. -/
def sampleOrd : Nat → MapOrder := fun _ => MapOrder.stored

/-- The base64 text of 64 zero bytes. -/
def sampleSecret : String :=
  "AAAAAAAAAAAAAAAAAAAAAAAAAAAAAAAAAAAAAAAAAAAAAAAAAAAAAAAAAAAAAAAAAAAAAAAAAAAAAAAAAAAAAA=="

def sampleKey : Key := ⟨"key", sampleSecret⟩

/-- The failure body `{"status":"fail","message":"rejected"}`. -/
def failBody : JSON := .obj [("status", .str "fail"), ("message", .str "rejected")]

/-- The body `{"status":"ok"}`. -/
def okBody : JSON := .obj [("status", .str "ok")]

/-- A server that answers every request with the failure body. -/
def alwaysFail : Server := fun _ _ => .json failBody

/-- A server that answers the first request with the failure body and every later one with
`{"status":"ok"}`. -/
def failOnce : Server := fun n _ => if n = 0 then .json failBody else .json okBody

/-- The frame `{"e":"orderFill","s":"SOL_USDC","i":"123"}`. -/
def orderFillFrame : List (String × JSON) :=
  [("e", .str "orderFill"), ("s", .str "SOL_USDC"), ("i", .str "123")]

/-! ## Further endpoint operations -/

structure Klines where
  symbol : String
  interval : String
  startTime : Int
  endTime : Int

structure HistoryTrades where
  symbol : String
  limit : Int
  offset : Int

structure OrderHistory where
  key : Key
  orderId : String
  symbol : String
  offset : Int
  limit : Int

/-- The struct `FillHistory`; its fields `from` and `to` are `fromTime` and `toTime` here. -/
structure FillHistory where
  key : Key
  orderId : String
  fromTime : Int
  toTime : Int
  symbol : String
  limit : Int
  offset : Int

structure WithdrawHistory where
  key : Key
  limit : Int
  offset : Int

/-- A record literal `{name: v[key], ...}` without type assertions, given as the list of its
`(name, key)`; an absent key gives the nil interface, which is `JSON.null` here. -/
def copyRecord (v : GoMap JSON) : List (String × String) → GoMap JSON
  | [] => []
  | (name, key) :: rest => (name, (GoMap.get? v key).getD .null) :: copyRecord v rest

/-- The loop `for _, values := range data { v := values.(map[string]interface{}); ...;
rst = append(rst, record) }` of `getKLines` and `getTickers`, whose records copy the values. -/
def copyLoop (fields : List (String × String)) :
    List (String × JSON) → List (Option (GoMap JSON)) → Option (List (Option (GoMap JSON)))
  | [], rst => some rst
  | (_, values) :: rest, rst =>
    match assertMap values with
    | none => none
    | some v => copyLoop fields rest (rst ++ [some (copyRecord v fields)])

/-- A slice that was declared by `var rst []T` and only appended to: nil while nothing was
appended. -/
def nilIfEmpty (rst : List (Option (GoMap JSON))) : Option (List (Option (GoMap JSON))) :=
  match rst with
  | [] => none
  | _ => some rst

/-- The record literal of `getRecentTrades` and of `getHistoricalTrades`. -/
def tradeFields : List (String × String × GoType) :=
  [("id", "id", .int64), ("price", "price", .string), ("quantity", "quantity", .string),
   ("quoteQuantity", "quoteQuantity", .string), ("timestamp", "timestamp", .int64),
   ("isBuyerMaker", "isBuyerMaker", .bool)]

/-- The record literal of `getWithdrawHistory`. -/
def withdrawFields : List (String × String × GoType) :=
  [("id", "id", .int32), ("blockchain", "blockchain", .string), ("clientId", "clientId", .string),
   ("identifier", "identifier", .string), ("quantity", "quantity", .string),
   ("fee", "fee", .string), ("symbol", "symbol", .string), ("status", "status", .string),
   ("subaccountId", "subaccountId", .int32), ("toAddress", "toAddress", .string),
   ("transactionHash", "transactionHash", .string), ("createdAt", "createdAt", .string)]

/-- The record literal of `getOrderHistory`. -/
def orderHistoryFields : List (String × String × GoType) :=
  [("id", "id", .string), ("orderType", "orderType", .string), ("symbol", "symbol", .string),
   ("side", "side", .string), ("price", "price", .string),
   ("triggerPrice", "triggerPrice", .string), ("quantity", "quantity", .string),
   ("quoteQuantity", "quoteQuantity", .string), ("timeInForce", "timeInForce", .int32),
   ("selfTradePrevention", "selfTradePrevention", .string), ("postOnly", "postOnly", .string),
   ("status", "status", .string)]

/-- The record literal of `getFillHistory`; its `orderId` is read from `orderType`. -/
def fillFields : List (String × String × GoType) :=
  [("tradeId", "tradeId", .int64), ("orderId", "orderType", .string),
   ("symbol", "symbol", .string), ("side", "side", .string), ("price", "price", .string),
   ("quantity", "quantity", .string), ("fee", "fee", .string),
   ("feeSymbol", "feeSymbol", .string), ("isMaker", "isMaker", .int32),
   ("timestamp", "timestamp", .string)]

/-- The record literal of `getKLines`. -/
def kLineFields : List (String × String) :=
  [("start", "start"), ("open", "open"), ("high", "high"), ("low", "low"), ("close", "close"),
   ("end", "end"), ("volume", "volume"), ("trades", "trades")]

/-- The record literal of `getTickers`. -/
def tickerFields : List (String × String) :=
  [("symbol", "symbol"), ("firstPrice", "firstPrice"), ("lastPrice", "lastPrice"),
   ("priceChange", "priceChange"), ("priceChangePercent", "priceChangePercent"),
   ("high", "high"), ("low", "low"), ("volume", "volume"), ("quoteVolume", "quoteVolume"),
   ("trades", "trades")]

/-- The function `getTickers`: `var rst []map[string]interface{}`, then one `append` per
entry. -/
def getTickers (ord : Nat → MapOrder) (server : Server) (sent : List Request) :
    Option (Option (List (Option (GoMap JSON))) × Err) × List Request :=
  let url := "/api/v1/tickers"
  match getRequest ord server sent url [] [] with
  | (none, sent) => (none, sent)
  | (some (_, some _), sent) => (none, sent)
  | (some (data, none), sent) =>
    if statusFail data then (some (none, none), sent)
    else
      match copyLoop tickerFields ((ord 3).run (entriesOf data)) [] with
      | none => (none, sent)
      | some rst => (some (nilIfEmpty rst, none), sent)

/-- The function `getKLines`: `var kLines []map[string]interface{}`, then one `append` per
entry. -/
def getKLines (ord : Nat → MapOrder) (server : Server) (sent : List Request) (k : Klines) :
    Option (Option (List (Option (GoMap JSON))) × Err) × List Request :=
  let url := "/api/v1/klines"
  let params : GoMap Value :=
    [("symbol", .str k.symbol), ("interval", .str k.interval), ("startTime", .int k.startTime),
     ("endTime", .int k.endTime)]
  match getRequest ord server sent url [] params with
  | (none, sent) => (none, sent)
  | (some (_, some _), sent) => (none, sent)
  | (some (data, none), sent) =>
    if statusFail data then (some (none, none), sent)
    else
      match copyLoop kLineFields ((ord 3).run (entriesOf data)) [] with
      | none => (none, sent)
      | some kLines => (some (nilIfEmpty kLines, none), sent)

/-- The function `getRecentTrades`: `rst := make([]map[string]interface{}, len(data))`, then one
`append` per entry. -/
def getRecentTrades (ord : Nat → MapOrder) (server : Server) (sent : List Request)
    (symbol : String) (limit : Int) :
    Option (Option (List (Option (GoMap JSON))) × Err) × List Request :=
  let url := "/api/v1/trades"
  let params : GoMap Value := [("symbol", .str symbol), ("limit", .int limit)]
  match getRequest ord server sent url [] params with
  | (none, sent) => (none, sent)
  | (some (_, some _), sent) => (none, sent)
  | (some (data, none), sent) =>
    if statusFail data then (some (none, none), sent)
    else
      let rst := List.replicate (entriesOf data).len none
      match reshapeLoop tradeFields ((ord 3).run (entriesOf data)) rst with
      | none => (none, sent)
      | some rst => (some (some rst, none), sent)

/-- The function `getHistoricalTrades`; its map literal has `"offset": h.limit`. -/
def getHistoricalTrades (ord : Nat → MapOrder) (server : Server) (sent : List Request)
    (h : HistoryTrades) : Option (Option (List (Option (GoMap JSON))) × Err) × List Request :=
  let url := "/api/v1/trades/history"
  let params : GoMap Value :=
    [("symbol", .str h.symbol), ("limit", .int h.limit), ("offset", .int h.limit)]
  match getRequest ord server sent url [] params with
  | (none, sent) => (none, sent)
  | (some (_, some _), sent) => (none, sent)
  | (some (data, none), sent) =>
    if statusFail data then (some (none, none), sent)
    else
      let rst := List.replicate (entriesOf data).len none
      match reshapeLoop tradeFields ((ord 3).run (entriesOf data)) rst with
      | none => (none, sent)
      | some rst => (some (some rst, none), sent)

/-- The function `getWithdrawHistory`; its map literal has `"offset": wh.limit`. -/
def getWithdrawHistory (sig : List Nat → String → List Nat) (ord : Nat → MapOrder) (now : Int)
    (server : Server) (sent : List Request) (wh : WithdrawHistory) :
    Option (Option (List (Option (GoMap JSON))) × Err) × List Request :=
  let url := "/wapi/v1/capital/withdrawals"
  let params : GoMap Value := [("limit", .int wh.limit), ("offset", .int wh.limit)]
  match generateSignature sig ord now "withdrawalQueryAll" wh.key.apiKey wh.key.secret params with
  | none => (none, sent)
  | some headers =>
    match getRequest (fun n => ord (n + 3)) server sent url headers params with
    | (none, sent) => (none, sent)
    | (some (_, some _), sent) => (none, sent)
    | (some (data, none), sent) =>
      if statusFail data then (some (none, none), sent)
      else
        let rst := List.replicate (entriesOf data).len none
        match reshapeLoop withdrawFields ((ord 6).run (entriesOf data)) rst with
        | none => (none, sent)
        | some rst => (some (some rst, none), sent)

/-- The function `getOrderHistory`. -/
def getOrderHistory (sig : List Nat → String → List Nat) (ord : Nat → MapOrder) (now : Int)
    (server : Server) (sent : List Request) (oh : OrderHistory) :
    Option (Option (List (Option (GoMap JSON))) × Err) × List Request :=
  let url := "/wapi/v1/history/orders"
  let params : GoMap Value :=
    [("orderId", .str oh.orderId), ("symbol", .str oh.symbol), ("limit", .int oh.limit),
     ("offset", .int oh.offset)]
  match generateSignature sig ord now "orderHistoryQueryAll" oh.key.apiKey oh.key.secret
      params with
  | none => (none, sent)
  | some headers =>
    match getRequest (fun n => ord (n + 3)) server sent url headers params with
    | (none, sent) => (none, sent)
    | (some (_, some _), sent) => (none, sent)
    | (some (data, none), sent) =>
      if statusFail data then (some (none, none), sent)
      else
        let rst := List.replicate (entriesOf data).len none
        match reshapeLoop orderHistoryFields ((ord 6).run (entriesOf data)) rst with
        | none => (none, sent)
        | some rst => (some (some rst, none), sent)

/-- The loop of `getFillHistory`: `rst[asset] = assetInfo` for every entry. -/
def fillLoop : List (String × JSON) → GoMap JSON → Option (GoMap JSON)
  | [], rst => some rst
  | (asset, values) :: rest, rst =>
    match assertMap values with
    | none => none
    | some v =>
      match reshapeRecord v fillFields with
      | none => none
      | some assetInfo => fillLoop rest (GoMap.set rst asset (.obj assetInfo))

/-- The function `getFillHistory`; its map literal has `"offset": FH.limit`. -/
def getFillHistory (sig : List Nat → String → List Nat) (ord : Nat → MapOrder) (now : Int)
    (server : Server) (sent : List Request) (FH : FillHistory) :
    Option (Option (GoMap JSON) × Err) × List Request :=
  let url := "/wapi/v1/history/fills"
  let params : GoMap Value :=
    [("orderId", .str FH.orderId), ("from", .int FH.fromTime), ("to", .int FH.toTime),
     ("symbol", .str FH.symbol), ("limit", .int FH.limit), ("offset", .int FH.limit)]
  match generateSignature sig ord now "fillHistoryQueryAll" FH.key.apiKey FH.key.secret
      params with
  | none => (none, sent)
  | some headers =>
    match getRequest (fun n => ord (n + 3)) server sent url headers params with
    | (none, sent) => (none, sent)
    | (some (_, some _), sent) => (none, sent)
    | (some (data, none), sent) =>
      if statusFail data then (some (none, none), sent)
      else
        match fillLoop ((ord 6).run (entriesOf data)) [] with
        | none => (none, sent)
        | some rst => (some (some rst, none), sent)

/-! ## The calls of `deleteRequest` made by `cancelOpenOrders` -/

/-- The arguments of one call `deleteRequest(url, head, proxy, params)`, by position. -/
structure DeleteCall where
  url : String
  head : GoMap String
  proxy : GoMap String
  params : GoMap Value

/-- The calls of `deleteRequest` made by the retry loop, in order: the loop of
`cancelOpenOrders.loop`, recording the arguments of every call. -/
def cancelOpenOrders.loopCalls (ord : Nat → MapOrder) (server : Server) (url : String)
    (proxy head : GoMap String) (paramsInterface : GoMap Value) (count : Nat)
    (sent : List Request) : List DeleteCall :=
  if _h : count > 3 then []
  else
    ⟨url, proxy, head, paramsInterface⟩ ::
      match deleteRequest ord server sent url proxy head paramsInterface with
      | (none, _) => []
      | (some (_, some _), _) => []
      | (some (data, none), sent) =>
        if statusFail data then
          cancelOpenOrders.loopCalls ord server url proxy head paramsInterface (count + 1) sent
        else []
termination_by 4 - count
decreasing_by omega

/-- The calls of `deleteRequest` made by one call of `cancelOpenOrders`; `generateSignature` is
called once, before the loop. -/
def cancelOpenOrders.calls (sig : List Nat → String → List Nat) (ord : Nat → MapOrder)
    (now : Int) (server : Server) (sent : List Request) (key : Key) (symbol : String)
    (proxy : GoMap String) : List DeleteCall :=
  let url := "/api/v1/orders"
  let params : GoMap Value := [("symbol", .str symbol)]
  match generateSignature sig ord now "orderCancelAll" key.apiKey key.secret params with
  | none => []
  | some head =>
    let paramsInterface := copyParams (ord 3) params
    cancelOpenOrders.loopCalls (fun n => ord (n + 4)) server url proxy head paramsInterface 0 sent

/-! ## Payloads that the signing string separates -/

/-- A `string` value. -/
def Value.isStr : Value → Bool
  | .str _ => true
  | _ => false

/-- An entry that the joined text keeps apart from its neighbours: the value is a string, the key
has no `&` and no `=`, the value has no `&`, and the key is none of the three names that
`generateSignature` assigns itself. -/
def PlainEntry (kv : String × Value) : Prop :=
  kv.2.isStr = true ∧ '&' ∉ kv.1.data ∧ '=' ∉ kv.1.data ∧ '&' ∉ (convertValue kv.2).data ∧
    kv.1 ≠ "instruction" ∧ kv.1 ≠ "timestamp" ∧ kv.1 ≠ "window"

instance PlainEntry.decidable (kv : String × Value) : Decidable (PlainEntry kv) :=
  inferInstanceAs (Decidable (_ ∧ _ ∧ _ ∧ _ ∧ _ ∧ _ ∧ _))

/-- The characters of `strings.Join(elems, "&")`, given the characters of the elements. -/
def joinData : List (List Char) → List Char
  | [] => []
  | a :: rest => a ++ rest.flatMap (fun b => '&' :: b)

/-! ## Sample responses -/

/-- A response with one trade, all of whose fields have the JSON type of the exchange:
`{"0":{"id":1,"price":"101.5","quantity":"2","quoteQuantity":"203","timestamp":1700000000000,
"isBuyerMaker":true}}`. -/
def oneTradeBody : JSON :=
  .obj [("0", .obj [("id", .int 1), ("price", .str "101.5"), ("quantity", .str "2"),
    ("quoteQuantity", .str "203"), ("timestamp", .int 1700000000000),
    ("isBuyerMaker", .bool true)])]

/-- A response with one k-line. -/
def oneKLineBody : JSON :=
  .obj [("0", .obj [("start", .str "2024-01-01 00:00:00"), ("open", .str "100"),
    ("high", .str "102"), ("low", .str "99"), ("close", .str "101"),
    ("end", .str "2024-01-01 00:01:00"), ("volume", .str "5"), ("trades", .str "7")])]

/-! ## Facts about maps -/

namespace GoMap

variable {α β : Type}

theorem keys_set (m : GoMap α) (k : String) (v : α) :
    (GoMap.set m k v).keys = if k ∈ m.keys then m.keys else m.keys ++ [k] := by
  induction m with
  | nil => simp [GoMap.set, keys]
  | cons p t ih =>
    obtain ⟨k', v'⟩ := p
    by_cases h : k' = k
    · subst h
      simp [GoMap.set, keys]
    · have h' : ¬ k = k' := fun e => h e.symm
      have ih' := ih
      simp only [keys] at ih'
      simp only [GoMap.set, keys, h, if_false, List.map_cons, List.mem_cons, h', false_or, ih']
      split <;> simp

theorem mem_keys_set (m : GoMap α) (k : String) (v : α) (k' : String) :
    k' ∈ (GoMap.set m k v).keys ↔ k' = k ∨ k' ∈ m.keys := by
  rw [keys_set]
  split
  · constructor
    · exact Or.inr
    · rintro (h | h)
      · subst h; assumption
      · exact h
  · simp [or_comm]

theorem wf_set (m : GoMap α) (k : String) (v : α) (h : m.WF) : (GoMap.set m k v).WF := by
  unfold WF at *
  rw [keys_set]
  split
  · exact h
  · rename_i hk
    exact List.Nodup.append h (List.nodup_singleton k) (by simpa using hk)

theorem get?_set (m : GoMap α) (k : String) (v : α) (k' : String) :
    GoMap.get? (GoMap.set m k v) k' = if k = k' then some v else GoMap.get? m k' := by
  induction m with
  | nil => simp [GoMap.set, GoMap.get?]
  | cons p t ih =>
    obtain ⟨k₀, v₀⟩ := p
    by_cases h : k₀ = k
    · subst h
      by_cases h₁ : k₀ = k' <;> simp [GoMap.set, GoMap.get?, h₁]
    · have hne : ¬ k = k₀ := fun e => h e.symm
      simp only [GoMap.set, h, if_false, GoMap.get?, ih]
      by_cases h₀ : k₀ = k'
      · subst h₀
        simp [hne]
      · simp [h₀]

theorem get?_eq_none (m : GoMap α) (k : String) : GoMap.get? m k = none ↔ k ∉ m.keys := by
  induction m with
  | nil => simp [GoMap.get?, keys]
  | cons p t ih =>
    obtain ⟨k₀, v₀⟩ := p
    have ih' : GoMap.get? t k = none ↔ k ∉ GoMap.keys t := ih
    by_cases h : k₀ = k
    · simp [GoMap.get?, keys, h]
    · have hne : ¬ k = k₀ := fun e => h e.symm
      simp only [keys] at ih'
      simp only [GoMap.get?, keys, h, if_false, ih', List.map_cons, List.mem_cons, hne, false_or]

theorem get?_eq_some (m : GoMap α) (h : m.WF) (k : String) (v : α) :
    GoMap.get? m k = some v ↔ (k, v) ∈ m := by
  induction m with
  | nil => simp [GoMap.get?]
  | cons p t ih =>
    obtain ⟨k₀, v₀⟩ := p
    have hnd : k₀ ∉ GoMap.keys t ∧ GoMap.WF t := by simpa [WF, keys] using h
    by_cases hk : k₀ = k
    · subst hk
      have : ∀ v, (k₀, v) ∉ t := fun v hv => hnd.1 (List.mem_map_of_mem Prod.fst hv)
      simp [GoMap.get?, this, eq_comm]
    · have hne : ¬ k = k₀ := fun e => hk e.symm
      simp [GoMap.get?, hk, ih hnd.2, hne]

theorem get?_perm {l l' : GoMap α} (hp : l.Perm l') (h : l.WF) (k : String) :
    GoMap.get? l k = GoMap.get? l' k := by
  have h' : l'.WF := (hp.map Prod.fst).nodup_iff.mp h
  cases hv : GoMap.get? l' k with
  | none =>
    rw [get?_eq_none] at hv ⊢
    exact fun hm => hv ((hp.map Prod.fst).mem_iff.mp hm)
  | some v =>
    rw [get?_eq_some _ h'] at hv
    rw [get?_eq_some _ h]
    exact hp.mem_iff.mpr hv

theorem mem_keys_foldl (f : α → β) (l : List (String × α)) (m : GoMap β) (k : String) :
    k ∈ (l.foldl (fun d kv => GoMap.set d kv.1 (f kv.2)) m).keys ↔ k ∈ m.keys ∨ k ∈ l.map Prod.fst := by
  induction l generalizing m with
  | nil => simp
  | cons p t ih =>
    simp only [List.foldl_cons, ih, mem_keys_set, List.map_cons, List.mem_cons]
    tauto

theorem wf_foldl (f : α → β) (l : List (String × α)) (m : GoMap β) (h : m.WF) :
    (l.foldl (fun d kv => GoMap.set d kv.1 (f kv.2)) m).WF := by
  induction l generalizing m with
  | nil => simpa using h
  | cons p t ih => exact ih _ (wf_set _ _ _ h)

theorem get?_foldl (f : α → β) (l : GoMap α) (hl : l.WF) (m : GoMap β) (k : String) :
    GoMap.get? (l.foldl (fun d kv => GoMap.set d kv.1 (f kv.2)) m) k =
      match GoMap.get? l k with
      | some x => some (f x)
      | none => GoMap.get? m k := by
  induction l generalizing m with
  | nil => simp [GoMap.get?]
  | cons p t ih =>
    obtain ⟨k₀, v₀⟩ := p
    have hnd : k₀ ∉ GoMap.keys t ∧ GoMap.WF t := by simpa [WF, keys] using hl
    rw [List.foldl_cons, ih hnd.2]
    by_cases hk : k₀ = k
    · subst hk
      have hn : GoMap.get? t k₀ = none := (get?_eq_none t k₀).mpr hnd.1
      simp [GoMap.get?, hn, get?_set]
    · simp only [GoMap.get?, hk, if_false, get?_set]

theorem wf_of_perm {l l' : GoMap α} (hp : l.Perm l') (h : l.WF) : l'.WF :=
  (hp.map Prod.fst).nodup_iff.mp h

end GoMap

/-! ## Facts about sorting and the signing string -/

theorem strLe_total (a b : String) : strLe a b ∨ strLe b a := le_total a.data b.data

theorem strLe_trans {a b c : String} (h₁ : strLe a b) (h₂ : strLe b c) : strLe a c :=
  @le_trans (List Char) _ _ _ _ h₁ h₂

theorem strLe_antisymm {a b : String} (h₁ : strLe a b) (h₂ : strLe b a) : a = b :=
  String.ext (@le_antisymm (List Char) _ _ _ h₁ h₂)

theorem strLt_of_le_of_ne {a b : String} (h₁ : strLe a b) (h₂ : a ≠ b) : strLt a b :=
  @lt_of_le_of_ne (List Char) _ _ _ h₁ (fun e => h₂ (String.ext e))

theorem strLe_isTotal : IsTotal String strLe := ⟨strLe_total⟩

theorem strLe_isTrans : IsTrans String strLe := ⟨fun _ _ _ => strLe_trans⟩

theorem strLe_isAntisymm : IsAntisymm String strLe := ⟨fun _ _ => strLe_antisymm⟩

theorem sortStrings_perm (l : List String) : (sortStrings l).Perm l :=
  List.perm_insertionSort strLe l

theorem sortStrings_sorted (l : List String) : List.Sorted strLe (sortStrings l) :=
  @List.sorted_insertionSort String strLe _ strLe_isTotal strLe_isTrans l

theorem sortStrings_strict (l : List String) (h : l.Nodup) : List.Sorted strLt (sortStrings l) := by
  have hnd : (sortStrings l).Nodup := (sortStrings_perm l).nodup_iff.mpr h
  have hs := sortStrings_sorted l
  unfold List.Sorted at hs ⊢
  exact (hs.and hnd).imp (fun h => strLt_of_le_of_ne h.1 h.2)

theorem sortStrings_congr {l l' : List String} (h : l.Perm l') : sortStrings l = sortStrings l' :=
  @List.eq_of_perm_of_sorted String strLe strLe_isAntisymm _ _
    (((sortStrings_perm l).trans h).trans (sortStrings_perm l').symm)
    (sortStrings_sorted l) (sortStrings_sorted l')

theorem convertMap_wf (ord : MapOrder) (payload : GoMap Value) : (convertMap ord payload).WF :=
  GoMap.wf_foldl convertValue _ [] List.nodup_nil

theorem convertMap_mem_keys (ord : MapOrder) (payload : GoMap Value) (k : String) :
    k ∈ (convertMap ord payload).keys ↔ k ∈ payload.keys := by
  unfold convertMap
  rw [GoMap.mem_keys_foldl]
  simp only [GoMap.keys, List.map_nil, List.not_mem_nil, false_or]
  exact ((ord.perm payload).map Prod.fst).mem_iff

theorem convertMap_get? (ord : MapOrder) (payload : GoMap Value) (h : payload.WF) (k : String) :
    GoMap.get? (convertMap ord payload) k = (GoMap.get? payload k).map convertValue := by
  have hr : GoMap.WF (ord.run payload) := GoMap.wf_of_perm (ord.perm payload).symm h
  unfold convertMap
  rw [GoMap.get?_foldl convertValue _ hr, GoMap.get?_perm (ord.perm payload) hr]
  cases GoMap.get? payload k <;> simp [GoMap.get?]

theorem signData_wf (ord : Nat → MapOrder) (instruction timestamp : String)
    (payload : GoMap Value) : (signData ord instruction timestamp payload).WF := by
  unfold signData
  refine GoMap.wf_set _ _ _ (GoMap.wf_set _ _ _ ?_)
  refine GoMap.wf_foldl (fun x => x) _ _ (GoMap.wf_set _ _ _ List.nodup_nil)

theorem signData_mem_keys (ord : Nat → MapOrder) (instruction timestamp : String)
    (payload : GoMap Value) (k : String) :
    k ∈ (signData ord instruction timestamp payload).keys ↔
      k = "window" ∨ k = "timestamp" ∨ k = "instruction" ∨ k ∈ payload.keys := by
  unfold signData
  simp only [GoMap.mem_keys_set]
  rw [GoMap.mem_keys_foldl (fun x => x), GoMap.mem_keys_set]
  have h₁ : k ∈ List.map Prod.fst ((ord 1).run (convertMap (ord 0) payload)) ↔
      k ∈ payload.keys := by
    rw [(((ord 1).perm (convertMap (ord 0) payload)).map Prod.fst).mem_iff]
    exact convertMap_mem_keys (ord 0) payload k
  rw [h₁]
  simp [GoMap.keys]

theorem signData_get? (ord : Nat → MapOrder) (instruction timestamp : String)
    (payload : GoMap Value) (h : payload.WF) (k : String) :
    GoMap.get? (signData ord instruction timestamp payload) k =
      if "window" = k then some window
      else if "timestamp" = k then some timestamp
      else match GoMap.get? payload k with
        | some x => some (convertValue x)
        | none => if "instruction" = k then some instruction else none := by
  have hc := convertMap_wf (ord 0) payload
  have hr : GoMap.WF ((ord 1).run (convertMap (ord 0) payload)) :=
    GoMap.wf_of_perm ((ord 1).perm _).symm hc
  unfold signData
  simp only [GoMap.get?_set]
  rw [GoMap.get?_foldl (fun x => x) _ hr, GoMap.get?_perm ((ord 1).perm _) hr,
    convertMap_get? _ _ h, GoMap.get?_set]
  cases GoMap.get? payload k <;> simp [GoMap.get?]

theorem signString_keys_perm (ord ord' : Nat → MapOrder) (instruction timestamp : String)
    (payload payload' : GoMap Value) (hperm : payload.Perm payload') :
    (((ord 2).run (signData ord instruction timestamp payload)).map Prod.fst).Perm
      (((ord' 2).run (signData ord' instruction timestamp payload')).map Prod.fst) := by
  have hk : ∀ (o : Nat → MapOrder) (p : GoMap Value),
      (((o 2).run (signData o instruction timestamp p)).map Prod.fst).Perm
        (signData o instruction timestamp p).keys :=
    fun o p => ((o 2).perm _).map Prod.fst
  refine ((hk ord payload).trans ?_).trans (hk ord' payload').symm
  rw [List.perm_ext_iff_of_nodup (signData_wf _ _ _ _) (signData_wf _ _ _ _)]
  intro k
  rw [signData_mem_keys, signData_mem_keys]
  have : k ∈ GoMap.keys payload ↔ k ∈ GoMap.keys payload' := (hperm.map Prod.fst).mem_iff
  rw [this]

/-- C1: when no key of the payload is `instruction`, `timestamp` or `window`, the string that
`generateSignature` signs is the `&`-join of the pairs `key=value` of a list of pairs that holds
exactly the instruction, the timestamp, the window `10000` and the converted payload entries, with
the keys in strictly ascending order (so each key once). -/
theorem signString_sorted_pairs (ord : Nat → MapOrder) (instruction timestamp : String)
    (payload : GoMap Value) (hwf : payload.WF) (hi : "instruction" ∉ payload.keys)
    (ht : "timestamp" ∉ payload.keys) (hw : "window" ∉ payload.keys) :
    ∃ pairs : List (String × String),
      signString ord instruction timestamp payload =
        Join (pairs.map (fun p => p.1 ++ "=" ++ p.2)) "&" ∧
      List.Sorted strLt (pairs.map Prod.fst) ∧
      ∀ k v, (k, v) ∈ pairs ↔
        (k = "instruction" ∧ v = instruction) ∨ (k = "timestamp" ∧ v = timestamp) ∨
        (k = "window" ∧ v = "10000") ∨ ∃ x, (k, x) ∈ payload ∧ v = convertValue x := by
  let data := signData ord instruction timestamp payload
  let keys := sortStrings (((ord 2).run data).map Prod.fst)
  have hkeys : ∀ k, k ∈ keys ↔
      k = "window" ∨ k = "timestamp" ∨ k = "instruction" ∨ k ∈ payload.keys := by
    intro k
    rw [(sortStrings_perm _).mem_iff, (((ord 2).perm data).map Prod.fst).mem_iff]
    exact signData_mem_keys ord instruction timestamp payload k
  have hnd : (((ord 2).run data).map Prod.fst).Nodup :=
    (((ord 2).perm data).map Prod.fst).nodup_iff.mpr (signData_wf _ _ _ _)
  refine ⟨keys.map (fun k => (k, GoMap.get data k)), ?_, ?_, ?_⟩
  · simp only [signString, List.map_map]
    rfl
  · rw [List.map_map]
    have : (Prod.fst ∘ fun k => (k, GoMap.get data k)) = id := rfl
    rw [this, List.map_id]
    exact sortStrings_strict _ hnd
  · intro k v
    have hget := signData_get? ord instruction timestamp payload hwf k
    simp only [List.mem_map, Prod.mk.injEq]
    constructor
    · rintro ⟨k', hk', rfl, rfl⟩
      rcases (hkeys k').mp hk' with h | h | h | h
      · subst h
        right; right; left
        refine ⟨rfl, ?_⟩
        simp [GoMap.get, data, hget, window]
      · subst h
        right; left
        refine ⟨rfl, ?_⟩
        simp [GoMap.get, data, hget]
      · subst h
        left
        refine ⟨rfl, ?_⟩
        have hn : GoMap.get? payload "instruction" = none := (GoMap.get?_eq_none _ _).mpr hi
        simp [GoMap.get, data, hget, hn]
      · right; right; right
        have hne₁ : ¬ "window" = k' := fun e => hw (e ▸ h)
        have hne₂ : ¬ "timestamp" = k' := fun e => ht (e ▸ h)
        cases hx : GoMap.get? payload k' with
        | none => exact absurd h ((GoMap.get?_eq_none _ _).mp hx)
        | some x =>
          refine ⟨x, (GoMap.get?_eq_some _ hwf _ _).mp hx, ?_⟩
          simp [GoMap.get, data, hget, hne₁, hne₂, hx]
    · rintro (⟨rfl, rfl⟩ | ⟨rfl, rfl⟩ | ⟨rfl, rfl⟩ | ⟨x, hx, rfl⟩)
      · refine ⟨"instruction", (hkeys _).mpr (by simp), rfl, ?_⟩
        have hn : GoMap.get? payload "instruction" = none := (GoMap.get?_eq_none _ _).mpr hi
        simp [GoMap.get, data, hget, hn]
      · refine ⟨"timestamp", (hkeys _).mpr (by simp), rfl, ?_⟩
        simp [GoMap.get, data, hget]
      · refine ⟨"window", (hkeys _).mpr (by simp), rfl, ?_⟩
        simp [GoMap.get, data, hget, window]
      · have hk : k ∈ payload.keys := List.mem_map_of_mem Prod.fst hx
        have hne₁ : ¬ "window" = k := fun e => hw (e ▸ hk)
        have hne₂ : ¬ "timestamp" = k := fun e => ht (e ▸ hk)
        have hx' := (GoMap.get?_eq_some _ hwf _ _).mpr hx
        refine ⟨k, (hkeys _).mpr (Or.inr (Or.inr (Or.inr hk))), rfl, ?_⟩
        simp [GoMap.get, data, hget, hne₁, hne₂, hx']

/-- Witness of C1 on the payload of `cancelOpenOrders`, visited back to front. -/
theorem signString_sorted_pairs_witness :
    GoMap.WF [("symbol", Value.str "SOL_USDC"), ("limit", Value.int 10)] ∧
    ∃ pairs : List (String × String),
      signString (fun _ => MapOrder.reversed) "orderCancelAll" "1700000000000"
          [("symbol", Value.str "SOL_USDC"), ("limit", Value.int 10)] =
        Join (pairs.map (fun p => p.1 ++ "=" ++ p.2)) "&" ∧
      List.Sorted strLt (pairs.map Prod.fst) ∧
      ∀ k v, (k, v) ∈ pairs ↔
        (k = "instruction" ∧ v = "orderCancelAll") ∨ (k = "timestamp" ∧ v = "1700000000000") ∨
        (k = "window" ∧ v = "10000") ∨
        ∃ x, (k, x) ∈ [("symbol", Value.str "SOL_USDC"), ("limit", Value.int 10)] ∧
          v = convertValue x :=
  ⟨by decide, signString_sorted_pairs _ _ _ _ (by decide) (by decide) (by decide) (by decide)⟩

/-- C2: for a fixed instruction, timestamp and payload content, the signing string does not
depend on the order in which the payload is enumerated nor on the order of any `range` loop of
`generateSignature`. -/
theorem signString_order_independent (ord ord' : Nat → MapOrder)
    (instruction timestamp : String) (payload payload' : GoMap Value) (hwf : payload.WF)
    (hperm : payload.Perm payload') :
    signString ord instruction timestamp payload =
      signString ord' instruction timestamp payload' := by
  have hwf' : payload'.WF := GoMap.wf_of_perm hperm hwf
  have hget : ∀ k, GoMap.get (signData ord instruction timestamp payload) k =
      GoMap.get (signData ord' instruction timestamp payload') k := by
    intro k
    simp only [GoMap.get, signData_get? _ _ _ _ hwf, signData_get? _ _ _ _ hwf',
      GoMap.get?_perm hperm hwf]
  simp only [signString]
  rw [sortStrings_congr (signString_keys_perm ord ord' instruction timestamp payload payload' hperm)]
  congr 1
  exact List.map_congr_left (fun k _ => by rw [hget k])

/-- Witness of C2: two enumerations of one payload, and two different visiting orders. -/
theorem signString_order_independent_witness :
    GoMap.WF [("symbol", Value.str "SOL_USDC"), ("limit", Value.int 10)] ∧
    List.Perm [("symbol", Value.str "SOL_USDC"), ("limit", Value.int 10)]
      [("limit", Value.int 10), ("symbol", Value.str "SOL_USDC")] ∧
    signString (fun _ => MapOrder.stored) "orderCancelAll" "1700000000000"
        [("symbol", Value.str "SOL_USDC"), ("limit", Value.int 10)] =
      signString (fun _ => MapOrder.reversed) "orderCancelAll" "1700000000000"
        [("limit", Value.int 10), ("symbol", Value.str "SOL_USDC")] :=
  ⟨by decide, List.Perm.swap _ _ _,
    signString_order_independent _ _ _ _ _ _ (by decide) (List.Perm.swap _ _ _)⟩

/-! ## The cancel-all retry loop -/

theorem cancelOpenOrders.loop_exhausted (ord : Nat → MapOrder) (server : Server) (url : String)
    (proxy head : GoMap String) (paramsInterface : GoMap Value) (count : Nat)
    (sent : List Request) (hc : 3 < count) :
    cancelOpenOrders.loop ord server url proxy head paramsInterface count sent =
      (some (none, none), sent) := by
  rw [cancelOpenOrders.loop]
  simp [hc]

theorem cancelOpenOrders.loop_retry (ord : Nat → MapOrder) (server : Server) (url : String)
    (proxy head : GoMap String) (paramsInterface : GoMap Value) (count : Nat)
    (sent : List Request) (hc : count ≤ 3)
    (hfail : failedReply (server sent.length
      ⟨"DELETE", baseURL ++ url, requestHeader (ord 0) proxy, [], some paramsInterface⟩) = true) :
    cancelOpenOrders.loop ord server url proxy head paramsInterface count sent =
      cancelOpenOrders.loop ord server url proxy head paramsInterface (count + 1)
        (sent ++ [⟨"DELETE", baseURL ++ url, requestHeader (ord 0) proxy, [],
          some paramsInterface⟩]) := by
  rw [cancelOpenOrders.loop]
  have hc' : ¬ count > 3 := by omega
  simp only [hc', dite_false, deleteRequest, doRequest]
  cases hr : server sent.length
      ⟨"DELETE", baseURL ++ url, requestHeader (ord 0) proxy, [], some paramsInterface⟩ with
  | netError => simp [hr, failedReply] at hfail
  | garbage => simp [hr, failedReply] at hfail
  | json v =>
    rw [hr] at hfail
    simp only [failedReply] at hfail
    cases hd : decodeBody v with
    | none => simp [hd] at hfail
    | some data =>
      simp only [hd] at hfail
      simp only [hd]
      simp [hfail]

theorem cancelOpenOrders.loop_return (ord : Nat → MapOrder) (server : Server) (url : String)
    (proxy head : GoMap String) (paramsInterface : GoMap Value) (count : Nat)
    (sent : List Request) (hc : count ≤ 3) (v : JSON) (data : Option (GoMap JSON))
    (hr : server sent.length
      ⟨"DELETE", baseURL ++ url, requestHeader (ord 0) proxy, [], some paramsInterface⟩ = .json v)
    (hd : decodeBody v = some data) (hs : statusFail data = false) :
    cancelOpenOrders.loop ord server url proxy head paramsInterface count sent =
      (some (data, none), sent ++ [⟨"DELETE", baseURL ++ url, requestHeader (ord 0) proxy, [],
          some paramsInterface⟩]) := by
  rw [cancelOpenOrders.loop]
  have hc' : ¬ count > 3 := by omega
  simp [hc', deleteRequest, doRequest, hr, hd, hs]

theorem cancelOpenOrders.loop_retries (ord : Nat → MapOrder) (server : Server) (url : String)
    (proxy head : GoMap String) (paramsInterface : GoMap Value) (n count : Nat)
    (sent : List Request) (hc : count + n ≤ 4)
    (hfail : ∀ i, i < n → failedReply (server (sent.length + i)
      ⟨"DELETE", baseURL ++ url, requestHeader (ord 0) proxy, [], some paramsInterface⟩) = true) :
    cancelOpenOrders.loop ord server url proxy head paramsInterface count sent =
      cancelOpenOrders.loop ord server url proxy head paramsInterface (count + n)
        (sent ++ List.replicate n ⟨"DELETE", baseURL ++ url, requestHeader (ord 0) proxy, [],
          some paramsInterface⟩) := by
  induction n generalizing count sent with
  | zero => simp
  | succ n ih =>
    rw [cancelOpenOrders.loop_retry ord server url proxy head paramsInterface count sent
      (by omega) (by simpa using hfail 0 (by omega))]
    rw [ih (count + 1) _ (by omega)]
    · rw [List.replicate_succ, List.append_assoc, List.singleton_append]
      congr 1
      omega
    · intro i hi
      have := hfail (i + 1) (by omega)
      simpa [Nat.add_assoc, Nat.add_comm 1 i] using this

/-- C3: when the signature headers are produced and each of the four delete attempts gets a
reply whose decoded status is `"fail"`, `cancelOpenOrders` sends exactly four delete requests and
returns the exhausted outcome `nil, nil`. -/
theorem cancelOpenOrders_exhausted (sig : List Nat → String → List Nat) (ord : Nat → MapOrder)
    (now : Int) (server : Server) (sent : List Request) (key : Key) (symbol : String)
    (proxy head : GoMap String)
    (hsig : generateSignature sig ord now "orderCancelAll" key.apiKey key.secret
      [("symbol", .str symbol)] = some head)
    (hfail : ∀ i, i < 4 →
      failedReply (server (sent.length + i) (cancelAllRequest ord symbol proxy)) = true) :
    cancelOpenOrders sig ord now server sent key symbol proxy =
      (some (none, none), sent ++ List.replicate 4 (cancelAllRequest ord symbol proxy)) := by
  simp only [cancelOpenOrders, hsig]
  rw [cancelOpenOrders.loop_retries (fun n => ord (n + 4)) server "/api/v1/orders" proxy head
    (copyParams (ord 3) [("symbol", .str symbol)]) 4 0 sent (by omega) hfail]
  exact cancelOpenOrders.loop_exhausted _ _ _ _ _ _ _ _ (by omega)

/-- C4: when the signature headers are produced, the first `k - 1` delete attempts get a reply
whose decoded status is `"fail"` and attempt `k` (with `1 ≤ k ≤ 4`) gets a body that decodes to
`data` without that status, `cancelOpenOrders` returns `data, nil` after exactly `k` delete
requests. -/
theorem cancelOpenOrders_first_success (sig : List Nat → String → List Nat)
    (ord : Nat → MapOrder) (now : Int) (server : Server) (sent : List Request) (key : Key)
    (symbol : String) (proxy head : GoMap String) (k : Nat) (v : JSON)
    (data : Option (GoMap JSON)) (hk₁ : 1 ≤ k) (hk₄ : k ≤ 4)
    (hsig : generateSignature sig ord now "orderCancelAll" key.apiKey key.secret
      [("symbol", .str symbol)] = some head)
    (hfail : ∀ i, i + 1 < k →
      failedReply (server (sent.length + i) (cancelAllRequest ord symbol proxy)) = true)
    (hreply : server (sent.length + (k - 1)) (cancelAllRequest ord symbol proxy) = .json v)
    (hdecode : decodeBody v = some data) (hstatus : statusFail data = false) :
    cancelOpenOrders sig ord now server sent key symbol proxy =
      (some (data, none), sent ++ List.replicate k (cancelAllRequest ord symbol proxy)) := by
  simp only [cancelOpenOrders, hsig]
  rw [cancelOpenOrders.loop_retries (fun n => ord (n + 4)) server "/api/v1/orders" proxy head
    (copyParams (ord 3) [("symbol", .str symbol)]) (k - 1) 0 sent (by omega)
    (fun i hi => hfail i (by omega))]
  rw [cancelOpenOrders.loop_return (fun n => ord (n + 4)) server "/api/v1/orders" proxy head
    (copyParams (ord 3) [("symbol", .str symbol)]) _ _ (by omega) v data
    (by simpa using hreply) hdecode hstatus]
  have hk : k = (k - 1) + 1 := by omega
  conv_rhs => rw [hk, List.replicate_succ']
  simp [cancelAllRequest, List.append_assoc]

/-- Witness of C3: a valid key and a server that always answers with the failure body. -/
theorem cancelOpenOrders_exhausted_witness :
    cancelOpenOrders sampleSig sampleOrd 1700000000000123456 alwaysFail [] sampleKey "SOL_USDC" [] =
      (some (none, none), [] ++ List.replicate 4 (cancelAllRequest sampleOrd "SOL_USDC" [])) :=
  cancelOpenOrders_exhausted sampleSig sampleOrd 1700000000000123456 alwaysFail [] sampleKey
    "SOL_USDC" []
    [("X-API-Key", "key"), ("X-Signature", sampleSecret), ("X-Timestamp", "1700000000000"),
      ("X-Window", "10000")]
    (by decide) (fun _ _ => rfl)

/-- Witness of C4: a failure on attempt 1 and a success on attempt 2 give the result of attempt 2
after two delete requests. -/
theorem cancelOpenOrders_first_success_witness :
    cancelOpenOrders sampleSig sampleOrd 1700000000000123456 failOnce [] sampleKey "SOL_USDC" [] =
      (some (some [("status", JSON.str "ok")], none),
        [] ++ List.replicate 2 (cancelAllRequest sampleOrd "SOL_USDC" [])) :=
  cancelOpenOrders_first_success sampleSig sampleOrd 1700000000000123456 failOnce [] sampleKey
    "SOL_USDC" []
    [("X-API-Key", "key"), ("X-Signature", sampleSecret), ("X-Timestamp", "1700000000000"),
      ("X-Window", "10000")]
    2 okBody (some [("status", JSON.str "ok")]) (by decide) (by decide) (by decide)
    (fun i hi => by
      have : i = 0 := by omega
      subst this
      rfl)
    rfl rfl rfl

/-! ## Failure bodies and signature headers on the wire -/

/-- C5 (the code departs from it): on the failure body `{"status":"fail","message":"rejected"}`
`getDepositeHistory` returns the failure outcome `nil, nil`, while `getTokenOpenAllOrders`, which
has no failure test, enters its reshaping loop on that body and panics at the first type
assertion. -/
theorem getTokenOpenAllOrders_reshapes_failure :
    (getDepositeHistory sampleSig sampleOrd 1700000000000123456 alwaysFail []
        ⟨sampleKey, 10, 0⟩).1 = some (none, none) ∧
    (getTokenOpenAllOrders sampleSig sampleOrd 1700000000000123456 alwaysFail []
        sampleKey "SOL_USDC").1 = none ∧
    reshapeLoop openOrderFields (entriesOf (some (decodeObject
        [("status", .str "fail"), ("message", .str "rejected")]))) [none, none] = none := by
  refine ⟨rfl, rfl, rfl⟩

/-- C6 (the code departs from it): with a valid key, the delete request of `cancelOpenOrder` and
the four delete requests of `cancelOpenOrders` (nil `proxy`) carry the `Content-Type` header only,
although `generateSignature` returned the four signature headers; the post request of
`requestWithdrawal` carries them. -/
theorem cancel_requests_lack_signature_headers :
    (cancelOpenOrder sampleSig sampleOrd 1700000000000123456 alwaysFail []
        ⟨sampleKey, 7, "123", "SOL_USDC"⟩).2.map Request.header =
      [[("Content-Type", "application/json; charset=utf-8")]] ∧
    (cancelOpenOrders sampleSig sampleOrd 1700000000000123456 alwaysFail [] sampleKey
        "SOL_USDC" []).2.map Request.header =
      List.replicate 4 [("Content-Type", "application/json; charset=utf-8")] ∧
    (requestWithdrawal sampleSig sampleOrd 1700000000000123456 alwaysFail []
        ⟨sampleKey, "addr", "Solana", "1", "2", "SOL", "000000", "0"⟩).2.map Request.header =
      [[("Content-Type", "application/json; charset=utf-8"), ("X-API-Key", "key"),
        ("X-Signature", sampleSecret), ("X-Timestamp", "1700000000000"),
        ("X-Window", "10000")]] := by
  refine ⟨by decide, ?_, by decide⟩
  have hsig : generateSignature sampleSig sampleOrd 1700000000000123456 "orderCancelAll"
      sampleKey.apiKey sampleKey.secret [("symbol", .str "SOL_USDC")] =
      some [("X-API-Key", "key"), ("X-Signature", sampleSecret),
        ("X-Timestamp", "1700000000000"), ("X-Window", "10000")] := by decide
  simp only [cancelOpenOrders, hsig]
  rw [cancelOpenOrders.loop_retries (fun n => sampleOrd (n + 4)) alwaysFail "/api/v1/orders" []
    _ (copyParams (sampleOrd 3) [("symbol", .str "SOL_USDC")]) 4 0 [] (by omega)
    (fun _ _ => rfl)]
  rw [cancelOpenOrders.loop_exhausted _ _ _ _ _ _ _ _ (by omega)]
  decide

/-! ## Streaming session -/

theorem callbackCalls_ListenAndServe (ticks : List Tick) :
    callbackCalls (ListenAndServe ticks).1 = [] := by
  induction ticks with
  | nil => rfl
  | cons t rest ih =>
    cases t with
    | done => rfl
    | readError => rfl
    | message m => simpa [ListenAndServe, callbackCalls] using ih

theorem logged_ListenAndServe (ticks : List Tick) :
    logged (ListenAndServe ticks).1 = framesRead ticks := by
  induction ticks with
  | nil => rfl
  | cons t rest ih =>
    cases t with
    | done => rfl
    | readError => rfl
    | message m => simpa [ListenAndServe, logged, framesRead] using ih

/-- C7 (the code departs from it): the inbound loop reads the frame
`{"e":"orderFill","s":"SOL_USDC","i":"123"}`, which decodes to an order update; `ListenAndServe`
writes the frame to the log and calls no callback, although `handleMessage`, which the same file
defines for this dispatch and which nothing calls, calls the callback once with that order update
on the same frame. -/
theorem ListenAndServe_calls_no_callback :
    Unmarshal (.value (.obj orderFillFrame)) OrderUpdate.zero =
      some { OrderUpdate.zero with Event := "orderFill", Symbol := "SOL_USDC", OrderID := "123" } ∧
    callbackCalls (ListenAndServe [.message (.value (.obj orderFillFrame))]).1 = [] ∧
    callbackCalls (ListenAndServe [.message (.value (.obj orderFillFrame))]).1 ≠
      [{ OrderUpdate.zero with Event := "orderFill", Symbol := "SOL_USDC", OrderID := "123" }] ∧
    ListenAndServe [.message (.value (.obj orderFillFrame))] =
      ([.log (.value (.obj orderFillFrame))], .blocked) ∧
    handleMessage (.value (.obj orderFillFrame)) =
      ([.callback { OrderUpdate.zero with
          Event := "orderFill", Symbol := "SOL_USDC", OrderID := "123" }], .returned) := by
  refine ⟨by decide, rfl, by decide, rfl, rfl⟩

/-- C8: for every stream name, `Subscribe` hands to `WriteJSON` exactly one value, the object with
`method` `"SUBSCRIBE"` and `params` the one-element list of the name, after setting the write
deadline, and returns the error of the write; `Unsubscribe` does the same with `"UNSUBSCRIBE"`;
for `depth.SOL_USDC` the text of the subscribe frame is
`{"method":"SUBSCRIBE","params":["depth.SOL_USDC"]}`. -/
theorem Subscribe_frame (now : Int) (writeErr : Err) (stream : String) :
    Subscribe now writeErr stream =
      ([.setWriteDeadline (now + readWait),
        .writeJSON (.obj [("method", .str "SUBSCRIBE"), ("params", .arr [.str stream])])],
        writeErr) ∧
    Unsubscribe now writeErr stream =
      ([.setWriteDeadline (now + readWait),
        .writeJSON (.obj [("method", .str "UNSUBSCRIBE"), ("params", .arr [.str stream])])],
        writeErr) ∧
    JSON.render (.obj [("method", .str "SUBSCRIBE"), ("params", .arr [.str "depth.SOL_USDC"])]) =
      "\x7b\"method\":\"SUBSCRIBE\",\"params\":[\"depth.SOL_USDC\"]\x7d" :=
  ⟨rfl, rfl, by decide⟩

/-! ## Decoding of an order-update frame -/

theorem lastValue_cons_ne (k key : String) (v : JSON) (rest : List (String × JSON))
    (h : k ≠ key) : lastValue ((k, v) :: rest) key = lastValue rest key := by
  simp only [lastValue, h, if_false]
  cases lastValue rest key <;> rfl

theorem lastValue_cons_null (k key : String) (rest : List (String × JSON)) :
    lastValue ((k, .null) :: rest) key = lastValue rest key := by
  simp only [lastValue]
  cases lastValue rest key <;> simp

theorem lastValue_typed (rest : List (String × JSON)) (h : rest.all typedMember = true)
    (f : String × Kind) (hf : orderUpdateFields.find? (fun g => g.1 = f.1) = some f) (x : JSON)
    (hx : lastValue rest f.1 = some x) : typedValue f.2 x = true ∧ x ≠ .null := by
  induction rest with
  | nil => simp [lastValue] at hx
  | cons p t ih =>
    obtain ⟨k, v⟩ := p
    rw [List.all_cons, Bool.and_eq_true] at h
    simp only [lastValue] at hx
    cases ht : lastValue t f.1 with
    | some y =>
      rw [ht] at hx
      simp only [Option.some.injEq] at hx
      subst hx
      exact ih h.2 ht
    | none =>
      rw [ht] at hx
      by_cases hk : k = f.1
      · subst hk
        have h₁ := h.1
        simp only [typedMember, hf] at h₁
        cases v <;> simp at hx <;> subst hx <;> exact ⟨h₁, by simp⟩
      · simp [hk] at hx

theorem overlay_cons_null (u : OrderUpdate) (k : String) (rest : List (String × JSON)) :
    u.overlay ((k, .null) :: rest) = u.overlay rest := by
  simp only [OrderUpdate.overlay, lastValue_cons_null]

theorem overlay_cons_unknown (u : OrderUpdate) (k : String) (v : JSON)
    (rest : List (String × JSON)) (h : orderUpdateFields.find? (fun f => f.1 = k) = none) :
    u.overlay ((k, v) :: rest) = u.overlay rest := by
  have hne : ∀ f ∈ orderUpdateFields, k ≠ f.1 := by
    intro f hf e
    have := List.find?_eq_none.mp h f hf
    simp [e] at this
  simp only [orderUpdateFields, List.mem_cons, List.mem_singleton, forall_eq_or_imp,
    List.not_mem_nil, forall_eq] at hne
  simp only [OrderUpdate.overlay]
  congr 1 <;> congr 1 <;> apply lastValue_cons_ne <;> simp_all

theorem stringOr_cons (d s : String) (o : Option JSON)
    (ho : ∀ x, o = some x → typedValue .string x = true ∧ x ≠ .null) :
    stringOr s o = stringOr d (o.or (some (.str s))) := by
  cases o with
  | none => rfl
  | some x =>
    have := ho x rfl
    cases x <;> simp_all [stringOr, typedValue]

theorem intOr_cons (d n : Int) (o : Option JSON)
    (ho : ∀ x, o = some x → typedValue .int64 x = true ∧ x ≠ .null) :
    intOr n o = intOr d (o.or (some (.int n))) := by
  cases o with
  | none => rfl
  | some x =>
    have := ho x rfl
    cases x <;> simp_all [intOr, typedValue]

theorem boolOr_cons (d b : Bool) (o : Option JSON)
    (ho : ∀ x, o = some x → typedValue .bool x = true ∧ x ≠ .null) :
    boolOr b o = boolOr d (o.or (some (.bool b))) := by
  cases o with
  | none => rfl
  | some x =>
    have := ho x rfl
    cases x <;> simp_all [boolOr, typedValue]

theorem lastValue_cons_self (k : String) (v : JSON) (rest : List (String × JSON))
    (hv : v ≠ .null) :
    lastValue ((k, v) :: rest) k = (lastValue rest k).or (some v) := by
  cases v <;> first
    | exact absurd rfl hv
    | (simp only [lastValue, if_true]
       cases lastValue rest k <;> rfl)

theorem decodeValue_overlay (u : OrderUpdate) (f : String × Kind) (hf : f ∈ orderUpdateFields)
    (v : JSON) (hv : typedValue f.2 v = true) (rest : List (String × JSON))
    (hrest : ∀ x, lastValue rest f.1 = some x → typedValue f.2 x = true ∧ x ≠ .null) :
    ∃ u', decodeValue u f v = some u' ∧ u'.overlay rest = u.overlay ((f.1, v) :: rest) := by
  cases v with
  | null =>
    refine ⟨u, ?_, (overlay_cons_null u f.1 rest).symm⟩
    simp [decodeValue]
  | str s =>
    refine ⟨u.setString f.1 s, ?_, ?_⟩
    · obtain ⟨t, k⟩ := f
      cases k <;> simp_all [decodeValue, typedValue]
    · fin_cases hf <;> first
        | (simp [typedValue] at hv; done)
        | (simp only [OrderUpdate.overlay]
           congr 1 <;> first
             | (rw [lastValue_cons_self _ _ _ (by simp)]
                exact stringOr_cons _ _ _ hrest)
             | (rw [lastValue_cons_ne _ _ _ _ (by decide)]
                rfl))
  | int n =>
    have hn : -9223372036854775808 ≤ n ∧ n ≤ 9223372036854775807 := by
      obtain ⟨t, k⟩ := f
      cases k <;> simp_all [typedValue]
    refine ⟨u.setInt64 f.1 n, ?_, ?_⟩
    · obtain ⟨t, k⟩ := f
      cases k <;> simp_all [decodeValue, typedValue]
    · fin_cases hf <;> first
        | (simp [typedValue] at hv; done)
        | (simp only [OrderUpdate.overlay]
           congr 1 <;> first
             | (rw [lastValue_cons_self _ _ _ (by simp)]
                exact intOr_cons _ _ _ hrest)
             | (rw [lastValue_cons_ne _ _ _ _ (by decide)]
                rfl))
  | bool b =>
    refine ⟨u.setBool f.1 b, ?_, ?_⟩
    · obtain ⟨t, k⟩ := f
      cases k <;> simp_all [decodeValue, typedValue]
    · fin_cases hf <;> first
        | (simp [typedValue] at hv; done)
        | (simp only [OrderUpdate.overlay]
           congr 1 <;> first
             | (rw [lastValue_cons_self _ _ _ (by simp)]
                exact boolOr_cons _ _ _ hrest)
             | (rw [lastValue_cons_ne _ _ _ _ (by decide)]
                rfl))
  | real text =>
    obtain ⟨t, k⟩ := f
    cases k <;> simp [typedValue] at hv
  | arr items =>
    obtain ⟨t, k⟩ := f
    cases k <;> simp [typedValue] at hv
  | obj members =>
    obtain ⟨t, k⟩ := f
    cases k <;> simp [typedValue] at hv

theorem findField_exact (k : String) (f : String × Kind)
    (h : orderUpdateFields.find? (fun g => g.1 = k) = some f) : findField k = some f := by
  simp only [findField, h]

theorem findField_unknown (k : String)
    (h₁ : orderUpdateFields.find? (fun g => g.1 = k) = none)
    (h₂ : orderUpdateFields.all (fun f => !equalFold f.1 k) = true) : findField k = none := by
  simp only [findField, h₁]
  rw [List.find?_eq_none]
  intro f hf
  have := List.all_eq_true.mp h₂ f hf
  simpa using this

theorem overlay_nil (u : OrderUpdate) : u.overlay [] = u := by
  cases u
  rfl

theorem decodeMembers_overlay (members : List (String × JSON))
    (h : members.all typedMember = true) (u : OrderUpdate) :
    decodeMembers members u = some (u.overlay members) := by
  induction members generalizing u with
  | nil => rw [overlay_nil]; rfl
  | cons p rest ih =>
    obtain ⟨k, v⟩ := p
    rw [List.all_cons, Bool.and_eq_true] at h
    have h₁ := h.1
    cases hfind : orderUpdateFields.find? (fun g => g.1 = k) with
    | none =>
      simp only [typedMember, hfind] at h₁
      rw [decodeMembers, findField_unknown k hfind h₁, overlay_cons_unknown u k v rest hfind]
      exact ih h.2 u
    | some f =>
      have hk : f.1 = k := by simpa using List.find?_some hfind
      have hmem : f ∈ orderUpdateFields := List.mem_of_find?_eq_some hfind
      simp only [typedMember, hfind] at h₁
      subst hk
      obtain ⟨u', hu', ho⟩ := decodeValue_overlay u f hmem v h₁ rest
        (fun x hx => lastValue_typed rest h.2 f hfind x hx)
      rw [decodeMembers, findField_exact _ _ hfind]
      simp only [hu']
      rw [ih h.2 u', ho]

/-- C9, counterexample: on the object frame `{"e":5}` `handleMessage` panics and calls no
callback; on the object frame `{"C":"abc"}`, which has no key `c`, the callback gets an order
update whose client order id is `"abc"`. -/
theorem handleMessage_not_every_object :
    handleMessage (.value (.obj [("e", .int 5)])) = ([], .panicked) ∧
    handleMessage (.value (.obj [("C", .str "abc")])) =
      ([.callback { OrderUpdate.zero with ClientOrderID := "abc" }], .returned) :=
  ⟨rfl, rfl⟩

/-- C9, amended: for every object frame in which each member either has a short-code key and a
value its field accepts (`null`, or a string, or for `m` a boolean, or for `E` and `T` an integer
of 64 bits), or has a key that equals no short code even up to case, `handleMessage` calls the
callback exactly once, with the order update whose fields are read from the short-code keys by
the table and are zero where the key is absent or `null`. -/
theorem handleMessage_short_codes (members : List (String × JSON))
    (h : members.all typedMember = true) :
    handleMessage (.value (.obj members)) =
      ([.callback (OrderUpdate.zero.overlay members)], .returned) := by
  have hdecode : Unmarshal (.value (.obj members)) OrderUpdate.zero =
      some (OrderUpdate.zero.overlay members) := by
    simp only [Unmarshal]
    exact decodeMembers_overlay members h OrderUpdate.zero
  unfold handleMessage
  rw [hdecode]

/-- Witness of C9, amended: the frame `{"e":"orderFill","s":"SOL_USDC","i":"123"}` gives event
type `orderFill`, symbol `SOL_USDC`, order id `123` and zero in every other field. -/
theorem handleMessage_short_codes_witness :
    orderFillFrame.all typedMember = true ∧
    handleMessage (.value (.obj orderFillFrame)) =
      ([.callback ⟨"orderFill", 0, "SOL_USDC", "", "", "", "", "", "", "", "", "", "123", "", "",
          "", "", "", false, "", "", "", 0⟩], .returned) :=
  ⟨by decide, handleMessage_short_codes orderFillFrame (by decide)⟩

/-! ## Abort of the signer -/

/-- C10: `generateSignature` panics exactly when the secret is rejected by the standard base64
decoder or decodes to a number of bytes other than 64; for every other secret it returns a
header set. -/
theorem generateSignature_aborts_iff (sig : List Nat → String → List Nat) (ord : Nat → MapOrder)
    (now : Int) (instruction apikey secret : String) (payload : GoMap Value) :
    (generateSignature sig ord now instruction apikey secret payload = none ↔
      base64Decode secret = none ∨
        ∃ bytes, base64Decode secret = some bytes ∧ bytes.length ≠ 64) ∧
    ((∃ bytes, base64Decode secret = some bytes ∧ bytes.length = 64) →
      ∃ head, generateSignature sig ord now instruction apikey secret payload = some head) := by
  unfold generateSignature ed25519Sign PrivateKeySize
  cases hd : base64Decode secret with
  | none => simp
  | some bytes =>
    by_cases hl : bytes.length = 64 <;> simp [hl]

/-- Witness of C10: a secret that is not base64 text and a secret that decodes to three bytes
make `generateSignature` panic; the base64 text of 64 bytes gives a header set. -/
theorem generateSignature_aborts_iff_witness :
    generateSignature sampleSig sampleOrd 1700000000000123456 "balanceQuery" "key"
        "not base64!" [] = none ∧
    generateSignature sampleSig sampleOrd 1700000000000123456 "balanceQuery" "key"
        "AAAA" [] = none ∧
    ∃ head, generateSignature sampleSig sampleOrd 1700000000000123456 "balanceQuery" "key"
        sampleSecret [] = some head :=
  ⟨(generateSignature_aborts_iff sampleSig sampleOrd 1700000000000123456 "balanceQuery" "key"
      "not base64!" []).1.mpr (Or.inl (by decide)),
   (generateSignature_aborts_iff sampleSig sampleOrd 1700000000000123456 "balanceQuery" "key"
      "AAAA" []).1.mpr (Or.inr ⟨[0, 0, 0], by decide, by decide⟩),
   (generateSignature_aborts_iff sampleSig sampleOrd 1700000000000123456 "balanceQuery" "key"
      sampleSecret []).2 ⟨List.replicate 64 0, by decide, by decide⟩⟩

/-! ## The header set of the signer -/

/-- C11: for every instruction, API key, payload and secret that decodes to a 64-byte key,
`generateSignature` returns the map with exactly the four keys `X-API-Key`, `X-Signature`,
`X-Timestamp`, `X-Window`; `X-API-Key` is the given key, `X-Window` is `10000`, `X-Signature` is
the encoded signature of the canonical string, and the value of `X-Timestamp` is the one joined
into that string as `timestamp=...`. -/
theorem generateSignature_headers (sig : List Nat → String → List Nat) (ord : Nat → MapOrder)
    (now : Int) (instruction apikey secret : String) (payload : GoMap Value) (key : List Nat)
    (hkey : base64Decode secret = some key) (hlen : key.length = 64) :
    generateSignature sig ord now instruction apikey secret payload =
      some [("X-API-Key", apikey),
        ("X-Signature",
          base64Encode (sig key (signString ord instruction (timestampOf now) payload))),
        ("X-Timestamp", timestampOf now), ("X-Window", "10000")] ∧
    ∃ elems : List String,
      signString ord instruction (timestampOf now) payload = Join elems "&" ∧
      "timestamp" ++ "=" ++ timestampOf now ∈ elems := by
  constructor
  · simp only [generateSignature, hkey, ed25519Sign, PrivateKeySize, hlen, if_true, window]
  · let data := signData ord instruction (timestampOf now) payload
    refine ⟨(sortStrings (((ord 2).run data).map Prod.fst)).map
      (fun k => k ++ "=" ++ GoMap.get data k), rfl, ?_⟩
    have hk : "timestamp" ∈ sortStrings (((ord 2).run data).map Prod.fst) := by
      rw [(sortStrings_perm _).mem_iff, (((ord 2).perm data).map Prod.fst).mem_iff]
      exact (signData_mem_keys ord instruction (timestampOf now) payload "timestamp").mpr
        (Or.inr (Or.inl rfl))
    have hv : GoMap.get data "timestamp" = timestampOf now := by
      simp only [data, GoMap.get, signData, GoMap.get?_set]
      simp
    rw [List.mem_map]
    exact ⟨"timestamp", hk, by rw [hv]⟩

/-- Witness of C11 on the sample key. -/
theorem generateSignature_headers_witness :
    generateSignature sampleSig sampleOrd 1700000000000123456 "orderCancelAll" "key" sampleSecret
        [("symbol", Value.str "SOL_USDC")] =
      some [("X-API-Key", "key"),
        ("X-Signature",
          base64Encode (sampleSig (List.replicate 64 0)
            (signString sampleOrd "orderCancelAll" (timestampOf 1700000000000123456)
              [("symbol", Value.str "SOL_USDC")]))),
        ("X-Timestamp", timestampOf 1700000000000123456), ("X-Window", "10000")] ∧
    ∃ elems : List String,
      signString sampleOrd "orderCancelAll" (timestampOf 1700000000000123456)
          [("symbol", Value.str "SOL_USDC")] = Join elems "&" ∧
      "timestamp" ++ "=" ++ timestampOf 1700000000000123456 ∈ elems :=
  generateSignature_headers sampleSig sampleOrd 1700000000000123456 "orderCancelAll" "key"
    sampleSecret [("symbol", Value.str "SOL_USDC")] (List.replicate 64 0) (by decide)
    (by decide)

/-! ## One header set per call of `cancelOpenOrders` -/

theorem deleteRequest_sent (ord : Nat → MapOrder) (server : Server) (sent : List Request)
    (url : String) (head proxy : GoMap String) (params : GoMap Value) :
    (deleteRequest ord server sent url head proxy params).2 =
      sent ++ [⟨"DELETE", baseURL ++ url, requestHeader (ord 0) head, [], some params⟩] := by
  simp only [deleteRequest, doRequest]
  split
  · rfl
  · rfl
  · split <;> rfl

theorem cancelOpenOrders.loopCalls_eq (ord : Nat → MapOrder) (server : Server) (url : String)
    (proxy head : GoMap String) (paramsInterface : GoMap Value) (n count : Nat)
    (hn : 4 - count = n) (sent : List Request) :
    cancelOpenOrders.loopCalls ord server url proxy head paramsInterface count sent =
        List.replicate
          (cancelOpenOrders.loopCalls ord server url proxy head paramsInterface count sent).length
          ⟨url, proxy, head, paramsInterface⟩ ∧
      (cancelOpenOrders.loop ord server url proxy head paramsInterface count sent).2.length =
        sent.length +
          (cancelOpenOrders.loopCalls ord server url proxy head paramsInterface count
            sent).length := by
  induction n generalizing count sent with
  | zero =>
    have hc : count > 3 := by omega
    rw [cancelOpenOrders.loopCalls, cancelOpenOrders.loop]
    simp [hc]
  | succ n ih =>
    have hc : ¬ count > 3 := by omega
    have hs := deleteRequest_sent ord server sent url proxy head paramsInterface
    rw [cancelOpenOrders.loopCalls, cancelOpenOrders.loop]
    simp only [hc, dite_false]
    rcases hd : deleteRequest ord server sent url proxy head paramsInterface with
      ⟨_ | ⟨data, _ | err⟩, sent'⟩
    · rw [hd] at hs
      simp only at hs
      simp [hs]
    · rw [hd] at hs
      simp only at hs
      by_cases hf : statusFail data = true
      · obtain ⟨h₁, h₂⟩ := ih (count + 1) (by omega) sent'
        simp only [hf, if_true, List.length_cons, List.replicate_succ, List.cons.injEq, true_and]
        refine ⟨h₁, ?_⟩
        rw [h₂, hs]
        simp only [List.length_append, List.length_singleton]
        omega
      · simp [hf, hs]
    · rw [hd] at hs
      simp only at hs
      simp [hs]

/-- C12, counterexample: against a server that always answers with the failure body,
`cancelOpenOrders` calls `deleteRequest` four times, and all four calls are given one and the same
signature header set, with the single timestamp `1700000000000`. -/
theorem cancelOpenOrders_reuses_headers :
    (cancelOpenOrders.calls sampleSig sampleOrd 1700000000000123456 alwaysFail [] sampleKey
        "SOL_USDC" []).map DeleteCall.proxy =
      List.replicate 4 [("X-API-Key", "key"), ("X-Signature", sampleSecret),
        ("X-Timestamp", "1700000000000"), ("X-Window", "10000")] := by
  have hsig : generateSignature sampleSig sampleOrd 1700000000000123456 "orderCancelAll"
      sampleKey.apiKey sampleKey.secret [("symbol", .str "SOL_USDC")] =
      some [("X-API-Key", "key"), ("X-Signature", sampleSecret),
        ("X-Timestamp", "1700000000000"), ("X-Window", "10000")] := by decide
  have hstep : ∀ (count : Nat) (sent : List Request) (head : GoMap String), count ≤ 3 →
      cancelOpenOrders.loopCalls (fun n => sampleOrd (n + 4)) alwaysFail "/api/v1/orders" [] head
          (copyParams (sampleOrd 3) [("symbol", .str "SOL_USDC")]) count sent =
        ⟨"/api/v1/orders", [], head, copyParams (sampleOrd 3) [("symbol", .str "SOL_USDC")]⟩ ::
          cancelOpenOrders.loopCalls (fun n => sampleOrd (n + 4)) alwaysFail "/api/v1/orders" []
            head (copyParams (sampleOrd 3) [("symbol", .str "SOL_USDC")]) (count + 1)
            (sent ++ [⟨"DELETE", baseURL ++ "/api/v1/orders",
              requestHeader (sampleOrd 4) [], [],
              some (copyParams (sampleOrd 3) [("symbol", .str "SOL_USDC")])⟩]) := by
    intro count sent head hc
    have hc' : ¬ count > 3 := by omega
    rw [cancelOpenOrders.loopCalls]
    simp only [hc', dite_false]
    rfl
  simp only [cancelOpenOrders.calls, hsig]
  rw [hstep 0 _ _ (by omega), hstep 1 _ _ (by omega), hstep 2 _ _ (by omega),
    hstep 3 _ _ (by omega), cancelOpenOrders.loopCalls]
  simp

/-- C12, amended: when the signature headers are produced, every call of `deleteRequest` made by
one call of `cancelOpenOrders` is given the same arguments, among them the one header set that
`generateSignature` returned before the loop (with its one timestamp), and these calls are
exactly the delete requests sent. -/
theorem cancelOpenOrders_one_header_set (sig : List Nat → String → List Nat)
    (ord : Nat → MapOrder) (now : Int) (server : Server) (sent : List Request) (key : Key)
    (symbol : String) (proxy head : GoMap String)
    (hsig : generateSignature sig ord now "orderCancelAll" key.apiKey key.secret
      [("symbol", .str symbol)] = some head) :
    (∀ call ∈ cancelOpenOrders.calls sig ord now server sent key symbol proxy,
      call.proxy = head ∧ call.head = proxy) ∧
    (cancelOpenOrders sig ord now server sent key symbol proxy).2.length =
      sent.length + (cancelOpenOrders.calls sig ord now server sent key symbol proxy).length := by
  simp only [cancelOpenOrders.calls, cancelOpenOrders, hsig]
  obtain ⟨h₁, h₂⟩ := cancelOpenOrders.loopCalls_eq (fun n => ord (n + 4)) server "/api/v1/orders"
    proxy head (copyParams (ord 3) [("symbol", .str symbol)]) 4 0 rfl sent
  refine ⟨?_, h₂⟩
  intro call hcall
  rw [h₁] at hcall
  rw [List.eq_of_mem_replicate hcall]
  exact ⟨rfl, rfl⟩

/-- Witness of C12, amended, on the sample key and the server that always fails. -/
theorem cancelOpenOrders_one_header_set_witness :
    (∀ call ∈ cancelOpenOrders.calls sampleSig sampleOrd 1700000000000123456 alwaysFail []
        sampleKey "SOL_USDC" [],
      call.proxy = [("X-API-Key", "key"), ("X-Signature", sampleSecret),
        ("X-Timestamp", "1700000000000"), ("X-Window", "10000")] ∧ call.head = []) ∧
    (cancelOpenOrders sampleSig sampleOrd 1700000000000123456 alwaysFail [] sampleKey
        "SOL_USDC" []).2.length =
      ([] : List Request).length +
        (cancelOpenOrders.calls sampleSig sampleOrd 1700000000000123456 alwaysFail [] sampleKey
          "SOL_USDC" []).length :=
  cancelOpenOrders_one_header_set sampleSig sampleOrd 1700000000000123456 alwaysFail []
    sampleKey "SOL_USDC" [] _ (by decide)

/-! ## The exhausted outcome and a successful one -/

/-- C14, counterexample: a server that answers the first request with the body `null`, which is
not a failure reply; `cancelOpenOrders` returns `nil, nil` after one request, the same pair that it
returns after four failed attempts. -/
theorem cancelOpenOrders_null_body_like_exhausted :
    failedReply (Reply.json .null) = false ∧
    cancelOpenOrders sampleSig sampleOrd 1700000000000123456 (fun _ _ => .json .null) [] sampleKey
        "SOL_USDC" [] =
      (some (none, none), [cancelAllRequest sampleOrd "SOL_USDC" []]) ∧
    (cancelOpenOrders sampleSig sampleOrd 1700000000000123456 alwaysFail [] sampleKey
        "SOL_USDC" []).1 = some (none, none) := by
  have hsig : generateSignature sampleSig sampleOrd 1700000000000123456 "orderCancelAll"
      sampleKey.apiKey sampleKey.secret [("symbol", .str "SOL_USDC")] =
      some [("X-API-Key", "key"), ("X-Signature", sampleSecret),
        ("X-Timestamp", "1700000000000"), ("X-Window", "10000")] := by decide
  refine ⟨rfl, ?_, ?_⟩
  · simp only [cancelOpenOrders, hsig]
    rw [cancelOpenOrders.loop_return (fun n => sampleOrd (n + 4)) (fun _ _ => .json .null)
      "/api/v1/orders" [] _ (copyParams (sampleOrd 3) [("symbol", .str "SOL_USDC")]) 0 []
      (by omega) .null none rfl rfl rfl]
    rfl
  · simp only [cancelOpenOrders, hsig]
    rw [cancelOpenOrders.loop_retries (fun n => sampleOrd (n + 4)) alwaysFail "/api/v1/orders" []
      _ (copyParams (sampleOrd 3) [("symbol", .str "SOL_USDC")]) 4 0 [] (by omega)
      (fun _ _ => rfl)]
    rw [cancelOpenOrders.loop_exhausted _ _ _ _ _ _ _ _ (by omega)]

/-- C14, amended: when the signature headers are produced, the first `k - 1` delete attempts get
a failure reply and attempt `k` (with `1 ≤ k ≤ 4`) gets a body that decodes to a map `m` (not nil)
without the failure status, `cancelOpenOrders` returns `m, nil`, which is not the pair `nil, nil`
of the exhausted outcome. -/
theorem cancelOpenOrders_success_distinct (sig : List Nat → String → List Nat)
    (ord : Nat → MapOrder) (now : Int) (server : Server) (sent : List Request) (key : Key)
    (symbol : String) (proxy head : GoMap String) (k : Nat) (v : JSON) (m : GoMap JSON)
    (hk₁ : 1 ≤ k) (hk₄ : k ≤ 4)
    (hsig : generateSignature sig ord now "orderCancelAll" key.apiKey key.secret
      [("symbol", .str symbol)] = some head)
    (hfail : ∀ i, i + 1 < k →
      failedReply (server (sent.length + i) (cancelAllRequest ord symbol proxy)) = true)
    (hreply : server (sent.length + (k - 1)) (cancelAllRequest ord symbol proxy) = .json v)
    (hdecode : decodeBody v = some (some m)) (hstatus : statusFail (some m) = false) :
    (cancelOpenOrders sig ord now server sent key symbol proxy).1 = some (some m, none) ∧
    (cancelOpenOrders sig ord now server sent key symbol proxy).1 ≠ some (none, none) := by
  have h : (cancelOpenOrders sig ord now server sent key symbol proxy).1 =
      some (some m, none) := by
    simp only [cancelOpenOrders, hsig]
    rw [cancelOpenOrders.loop_retries (fun n => ord (n + 4)) server "/api/v1/orders" proxy head
      (copyParams (ord 3) [("symbol", .str symbol)]) (k - 1) 0 sent (by omega)
      (fun i hi => hfail i (by omega))]
    rw [cancelOpenOrders.loop_return (fun n => ord (n + 4)) server "/api/v1/orders" proxy head
      (copyParams (ord 3) [("symbol", .str symbol)]) _ _ (by omega) v (some m)
      (by simpa using hreply) hdecode hstatus]
  refine ⟨h, ?_⟩
  rw [h]
  simp

/-- Witness of C14, amended: a failure on attempt 1 and the body `{"status":"ok"}` on
attempt 2. -/
theorem cancelOpenOrders_success_distinct_witness :
    (cancelOpenOrders sampleSig sampleOrd 1700000000000123456 failOnce [] sampleKey "SOL_USDC"
        []).1 = some (some [("status", JSON.str "ok")], none) ∧
    (cancelOpenOrders sampleSig sampleOrd 1700000000000123456 failOnce [] sampleKey "SOL_USDC"
        []).1 ≠ some (none, none) :=
  cancelOpenOrders_success_distinct sampleSig sampleOrd 1700000000000123456 failOnce []
    sampleKey "SOL_USDC" []
    [("X-API-Key", "key"), ("X-Signature", sampleSecret), ("X-Timestamp", "1700000000000"),
      ("X-Window", "10000")]
    2 okBody [("status", JSON.str "ok")] (by decide) (by decide) (by decide)
    (fun i hi => by
      have : i = 0 := by omega
      subst this
      rfl)
    rfl rfl rfl

/-! ## `convertMap` -/

/-- C15: for every payload map, `convertMap` returns a map with exactly the keys of the payload,
in which a string value is unchanged and an integer value is its decimal text (`10` gives `"10"`,
`-5` gives `"-5"`); the nil payload gives the empty map. -/
theorem convertMap_values (ord : MapOrder) (payload : GoMap Value) (hwf : payload.WF) :
    (convertMap ord payload).WF ∧
    (∀ k, k ∈ (convertMap ord payload).keys ↔ k ∈ payload.keys) ∧
    (∀ k s, (k, Value.str s) ∈ payload → GoMap.get? (convertMap ord payload) k = some s) ∧
    (∀ k n, (k, Value.int n) ∈ payload →
      GoMap.get? (convertMap ord payload) k = some (Itoa n)) ∧
    Itoa 10 = "10" ∧ Itoa (-5) = "-5" ∧ convertMap ord [] = [] := by
  refine ⟨convertMap_wf ord payload, convertMap_mem_keys ord payload, ?_, ?_, by decide,
    by decide, ?_⟩
  · intro k s h
    rw [convertMap_get? ord payload hwf, (GoMap.get?_eq_some payload hwf k _).mpr h]
    rfl
  · intro k n h
    rw [convertMap_get? ord payload hwf, (GoMap.get?_eq_some payload hwf k _).mpr h]
    rfl
  · have : ord.run ([] : GoMap Value) = [] := List.Perm.eq_nil (ord.perm [])
    simp only [convertMap, this, List.foldl_nil]

/-- Witness of C15 on a payload with a string and two integers. -/
theorem convertMap_values_witness :
    (convertMap MapOrder.reversed
      [("symbol", Value.str "SOL_USDC"), ("limit", Value.int 10), ("delta", Value.int (-5))]).WF ∧
    (∀ k, k ∈ (convertMap MapOrder.reversed
        [("symbol", Value.str "SOL_USDC"), ("limit", Value.int 10),
          ("delta", Value.int (-5))]).keys ↔
      k ∈ GoMap.keys
        [("symbol", Value.str "SOL_USDC"), ("limit", Value.int 10), ("delta", Value.int (-5))]) ∧
    (∀ k s, (k, Value.str s) ∈
        [("symbol", Value.str "SOL_USDC"), ("limit", Value.int 10), ("delta", Value.int (-5))] →
      GoMap.get? (convertMap MapOrder.reversed
        [("symbol", Value.str "SOL_USDC"), ("limit", Value.int 10),
          ("delta", Value.int (-5))]) k = some s) ∧
    (∀ k n, (k, Value.int n) ∈
        [("symbol", Value.str "SOL_USDC"), ("limit", Value.int 10), ("delta", Value.int (-5))] →
      GoMap.get? (convertMap MapOrder.reversed
        [("symbol", Value.str "SOL_USDC"), ("limit", Value.int 10),
          ("delta", Value.int (-5))]) k = some (Itoa n)) ∧
    Itoa 10 = "10" ∧ Itoa (-5) = "-5" ∧ convertMap MapOrder.reversed [] = [] :=
  convertMap_values MapOrder.reversed
    [("symbol", Value.str "SOL_USDC"), ("limit", Value.int 10), ("delta", Value.int (-5))]
    (by decide)

/-! ## The `offset` parameter and the reshaped lists -/

/-- C16 (the code departs from it): for the parameter objects with limit 10 and offset 20, the
requests of `getHistoricalTrades`, `getWithdrawHistory` and `getFillHistory` carry `offset=10`,
the limit, while those of `getDepositeHistory` and `getOrderHistory` carry `offset=20`. -/
theorem offset_parameter_is_limit :
    (getHistoricalTrades sampleOrd alwaysFail [] ⟨"SOL_USDC", 10, 20⟩).2.map Request.query =
      [[("symbol", "SOL_USDC"), ("limit", "10"), ("offset", "10")]] ∧
    (getWithdrawHistory sampleSig sampleOrd 1700000000000123456 alwaysFail []
        ⟨sampleKey, 10, 20⟩).2.map Request.query = [[("limit", "10"), ("offset", "10")]] ∧
    (getFillHistory sampleSig sampleOrd 1700000000000123456 alwaysFail []
        ⟨sampleKey, "123", 1, 2, "SOL_USDC", 10, 20⟩).2.map Request.query =
      [[("orderId", "123"), ("from", "1"), ("to", "2"), ("symbol", "SOL_USDC"), ("limit", "10"),
        ("offset", "10")]] ∧
    (getDepositeHistory sampleSig sampleOrd 1700000000000123456 alwaysFail []
        ⟨sampleKey, 10, 20⟩).2.map Request.query = [[("limit", "10"), ("offset", "20")]] ∧
    (getOrderHistory sampleSig sampleOrd 1700000000000123456 alwaysFail []
        ⟨sampleKey, "123", "SOL_USDC", 20, 10⟩).2.map Request.query =
      [[("orderId", "123"), ("symbol", "SOL_USDC"), ("limit", "10"), ("offset", "20")]] := by
  refine ⟨by decide, by decide, by decide, by decide, by decide⟩

/-! ## The signing string separates plain payloads -/

theorem intercalate_go_data (acc s : String) (l : List String) :
    (String.intercalate.go acc s l).data =
      acc.data ++ l.flatMap (fun a => s.data ++ a.data) := by
  induction l generalizing acc with
  | nil => simp [String.intercalate.go]
  | cons a t ih =>
    rw [String.intercalate.go, ih]
    simp [String.data_append, List.append_assoc]

theorem Join_data (l : List String) : (Join l "&").data = joinData (l.map String.data) := by
  cases l with
  | nil => rfl
  | cons a t =>
    simp only [Join, String.intercalate, intercalate_go_data, List.map_cons, joinData,
      List.flatMap_map]
    rfl

theorem split_unique (c : Char) (x y r r' : List Char) (hx : c ∉ x) (hy : c ∉ y)
    (h : x ++ c :: r = y ++ c :: r') : x = y ∧ r = r' := by
  induction x generalizing y with
  | nil =>
    cases y with
    | nil => simpa using h
    | cons b y' =>
      simp only [List.nil_append, List.cons_append, List.cons.injEq] at h
      exact absurd (List.mem_cons.mpr (Or.inl h.1)) hy
  | cons a x' ih =>
    cases y with
    | nil =>
      simp only [List.nil_append, List.cons_append, List.cons.injEq] at h
      exact absurd (List.mem_cons.mpr (Or.inl h.1.symm)) hx
    | cons b y' =>
      simp only [List.cons_append, List.cons.injEq] at h
      obtain ⟨h₁, h₂⟩ := ih y' (fun m => hx (List.mem_cons_of_mem _ m))
        (fun m => hy (List.mem_cons_of_mem _ m)) h.2
      exact ⟨by rw [h.1, h₁], h₂⟩

theorem joinData_cons_injective (a a' : List Char) (rest rest' : List (List Char))
    (ha : '&' ∉ a) (ha' : '&' ∉ a') (hr : ∀ b ∈ rest, '&' ∉ b) (hr' : ∀ b ∈ rest', '&' ∉ b)
    (h : joinData (a :: rest) = joinData (a' :: rest')) : a = a' ∧ rest = rest' := by
  induction rest generalizing a a' rest' with
  | nil =>
    cases rest' with
    | nil => simpa [joinData] using h
    | cons b' t' =>
      simp only [joinData, List.flatMap_nil, List.append_nil, List.flatMap_cons,
        List.cons_append] at h
      exact absurd (h ▸ List.mem_append_right a' (List.mem_cons_self _ _)) ha
  | cons b t ih =>
    cases rest' with
    | nil =>
      simp only [joinData, List.flatMap_nil, List.append_nil, List.flatMap_cons,
        List.cons_append] at h
      exact absurd (h ▸ List.mem_append_right a (List.mem_cons_self _ _)) ha'
    | cons b' t' =>
      simp only [joinData, List.flatMap_cons, List.cons_append] at h
      obtain ⟨h₁, h₂⟩ := split_unique '&' a a' _ _ ha ha' h
      obtain ⟨h₃, h₄⟩ := ih b b' t' (hr b (List.mem_cons_self _ _))
        (hr' b' (List.mem_cons_self _ _)) (fun c hc => hr c (List.mem_cons_of_mem _ hc))
        (fun c hc => hr' c (List.mem_cons_of_mem _ hc)) (by simpa [joinData] using h₂)
      exact ⟨h₁, by rw [h₃, h₄]⟩

theorem map_eq_map_of_injOn {α β : Type} (f g : α → β) (l l' : List α)
    (hinj : ∀ a ∈ l, ∀ b ∈ l', f a = g b → a = b) (h : l.map f = l'.map g) :
    l = l' ∧ ∀ a ∈ l, f a = g a := by
  induction l generalizing l' with
  | nil =>
    cases l' with
    | nil => simp
    | cons b t => simp at h
  | cons a t ih =>
    cases l' with
    | nil => simp at h
    | cons b t' =>
      simp only [List.map_cons, List.cons.injEq] at h
      have hab := hinj a (List.mem_cons_self _ _) b (List.mem_cons_self _ _) h.1
      subst hab
      obtain ⟨h₁, h₂⟩ := ih t'
        (fun x hx y hy => hinj x (List.mem_cons_of_mem _ hx) y (List.mem_cons_of_mem _ hy)) h.2
      refine ⟨by rw [h₁], ?_⟩
      intro x hx
      rcases List.mem_cons.mp hx with rfl | hx
      · exact h.1
      · exact h₂ x hx

theorem GoMap.perm_of_get?_eq {α : Type} (l l' : GoMap α) (h : l.WF) (h' : l'.WF)
    (hget : ∀ k, GoMap.get? l k = GoMap.get? l' k) : l.Perm l' := by
  rw [List.perm_ext_iff_of_nodup (List.Nodup.of_map Prod.fst h) (List.Nodup.of_map Prod.fst h')]
  rintro ⟨k, v⟩
  rw [← GoMap.get?_eq_some l h, ← GoMap.get?_eq_some l' h', hget]

theorem joinData_injective (l l' : List (List Char)) (hl : l ≠ []) (hl' : l' ≠ [])
    (h₁ : ∀ a ∈ l, '&' ∉ a) (h₂ : ∀ a ∈ l', '&' ∉ a) (h : joinData l = joinData l') :
    l = l' := by
  cases l with
  | nil => exact absurd rfl hl
  | cons a rest =>
    cases l' with
    | nil => exact absurd rfl hl'
    | cons a' rest' =>
      obtain ⟨e₁, e₂⟩ := joinData_cons_injective a a' rest rest'
        (h₁ a (List.mem_cons_self _ _)) (h₂ a' (List.mem_cons_self _ _))
        (fun b hb => h₁ b (List.mem_cons_of_mem _ hb))
        (fun b hb => h₂ b (List.mem_cons_of_mem _ hb)) h
      rw [e₁, e₂]

theorem pair_data (k v : String) : (k ++ "=" ++ v).data = k.data ++ '=' :: v.data := by
  simp [String.data_append]

theorem signData_get_of_mem (ord : Nat → MapOrder) (instruction timestamp : String)
    (payload : GoMap Value) (hwf : payload.WF) (hp : ∀ kv ∈ payload, PlainEntry kv)
    (k : String) (x : Value) (hx : (k, x) ∈ payload) :
    GoMap.get (signData ord instruction timestamp payload) k = convertValue x := by
  obtain ⟨_, _, _, _, _, h₂, h₃⟩ := hp (k, x) hx
  have hw : ¬ "window" = k := fun e => h₃ e.symm
  have ht : ¬ "timestamp" = k := fun e => h₂ e.symm
  simp [GoMap.get, signData_get? ord instruction timestamp payload hwf k, hw, ht,
    (GoMap.get?_eq_some payload hwf k x).mpr hx]

theorem not_mem_keys_of_plain (payload : GoMap Value) (hp : ∀ kv ∈ payload, PlainEntry kv)
    (k : String) (hk : k = "instruction" ∨ k = "timestamp" ∨ k = "window") :
    k ∉ payload.keys := by
  intro hmem
  obtain ⟨⟨k', x⟩, hx, rfl⟩ := List.mem_map.mp hmem
  obtain ⟨_, _, _, _, h₁, h₂, h₃⟩ := hp (k', x) hx
  rcases hk with h | h | h
  · exact h₁ h
  · exact h₂ h
  · exact h₃ h

theorem signData_get_reserved (ord : Nat → MapOrder) (instruction timestamp : String)
    (payload : GoMap Value) (hwf : payload.WF) (hp : ∀ kv ∈ payload, PlainEntry kv) :
    GoMap.get (signData ord instruction timestamp payload) "instruction" = instruction ∧
    GoMap.get (signData ord instruction timestamp payload) "timestamp" = timestamp ∧
    GoMap.get (signData ord instruction timestamp payload) "window" = "10000" := by
  have hn : GoMap.get? payload "instruction" = none :=
    (GoMap.get?_eq_none _ _).mpr (not_mem_keys_of_plain payload hp _ (Or.inl rfl))
  refine ⟨?_, ?_, ?_⟩
  · simp [GoMap.get, signData_get? ord instruction timestamp payload hwf, hn]
  · simp [GoMap.get, signData_get? ord instruction timestamp payload hwf]
  · simp [GoMap.get, signData_get? ord instruction timestamp payload hwf, window]

theorem signData_plain (ord : Nat → MapOrder) (instruction timestamp : String)
    (payload : GoMap Value) (hwf : payload.WF) (hp : ∀ kv ∈ payload, PlainEntry kv)
    (hi : '&' ∉ instruction.data) (ht : '&' ∉ timestamp.data) (k : String)
    (hk : k ∈ (signData ord instruction timestamp payload).keys) :
    '&' ∉ k.data ∧ '=' ∉ k.data ∧
      '&' ∉ (GoMap.get (signData ord instruction timestamp payload) k).data := by
  obtain ⟨h₁, h₂, h₃⟩ := signData_get_reserved ord instruction timestamp payload hwf hp
  rcases (signData_mem_keys ord instruction timestamp payload k).mp hk with h | h | h | h
  · subst h
    rw [h₃]
    decide
  · subst h
    rw [h₂]
    exact ⟨by decide, by decide, ht⟩
  · subst h
    rw [h₁]
    exact ⟨by decide, by decide, hi⟩
  · obtain ⟨⟨k', x⟩, hx, rfl⟩ := List.mem_map.mp h
    rw [signData_get_of_mem ord instruction timestamp payload hwf hp k' x hx]
    obtain ⟨_, a, b, c, _⟩ := hp (k', x) hx
    exact ⟨a, b, c⟩

theorem signString_keys_values (ord ord' : Nat → MapOrder) (instruction timestamp : String)
    (payload payload' : GoMap Value) (hwf : payload.WF) (hwf' : payload'.WF)
    (hp : ∀ kv ∈ payload, PlainEntry kv) (hp' : ∀ kv ∈ payload', PlainEntry kv)
    (hi : '&' ∉ instruction.data) (ht : '&' ∉ timestamp.data)
    (heq : signString ord instruction timestamp payload =
      signString ord' instruction timestamp payload') (k : String)
    (hk : k ∈ (signData ord instruction timestamp payload).keys) :
    k ∈ (signData ord' instruction timestamp payload').keys ∧
      GoMap.get (signData ord instruction timestamp payload) k =
        GoMap.get (signData ord' instruction timestamp payload') k := by
  have hmem : ∀ (o : Nat → MapOrder) (p : GoMap Value) (x : String),
      x ∈ sortStrings (((o 2).run (signData o instruction timestamp p)).map Prod.fst) ↔
        x ∈ (signData o instruction timestamp p).keys := by
    intro o p x
    rw [(sortStrings_perm _).mem_iff, (((o 2).perm _).map Prod.fst).mem_iff]
    rfl
  have hne : ∀ (o : Nat → MapOrder) (p : GoMap Value),
      sortStrings (((o 2).run (signData o instruction timestamp p)).map Prod.fst) ≠ [] := by
    intro o p e
    have : "window" ∈ sortStrings (((o 2).run (signData o instruction timestamp p)).map
        Prod.fst) :=
      (hmem o p _).mpr ((signData_mem_keys o instruction timestamp p _).mpr (Or.inl rfl))
    rw [e] at this
    exact List.not_mem_nil _ this
  have hd := congrArg String.data heq
  simp only [signString, Join_data, List.map_map] at hd
  have hlists := joinData_injective _ _
    (by simpa using hne ord payload) (by simpa using hne ord' payload')
    (by
      intro a ha
      obtain ⟨x, hx, rfl⟩ := List.mem_map.mp ha
      obtain ⟨p₁, _, p₃⟩ := signData_plain ord instruction timestamp payload hwf hp hi ht x
        ((hmem ord payload x).mp hx)
      simp only [Function.comp, pair_data, List.mem_append, List.mem_cons, not_or]
      exact ⟨p₁, by decide, p₃⟩)
    (by
      intro a ha
      obtain ⟨x, hx, rfl⟩ := List.mem_map.mp ha
      obtain ⟨p₁, _, p₃⟩ := signData_plain ord' instruction timestamp payload' hwf' hp' hi ht x
        ((hmem ord' payload' x).mp hx)
      simp only [Function.comp, pair_data, List.mem_append, List.mem_cons, not_or]
      exact ⟨p₁, by decide, p₃⟩)
    hd
  obtain ⟨hK, hV⟩ := map_eq_map_of_injOn _ _ _ _
    (by
      intro a ha b hb hab
      simp only [Function.comp, pair_data] at hab
      obtain ⟨_, q₂, _⟩ := signData_plain ord instruction timestamp payload hwf hp hi ht a
        ((hmem ord payload a).mp ha)
      obtain ⟨_, q₂', _⟩ := signData_plain ord' instruction timestamp payload' hwf' hp' hi ht b
        ((hmem ord' payload' b).mp hb)
      exact String.ext (split_unique '=' _ _ _ _ q₂ q₂' hab).1)
    hlists
  have hk₁ := (hmem ord payload k).mpr hk
  refine ⟨(hmem ord' payload' k).mp (hK ▸ hk₁), ?_⟩
  have hv := hV k hk₁
  simp only [Function.comp, pair_data] at hv
  obtain ⟨_, q₂, _⟩ := signData_plain ord instruction timestamp payload hwf hp hi ht k hk
  exact String.ext (split_unique '=' _ _ _ _ q₂ q₂ hv).2

theorem signString_get?_transfer (ord ord' : Nat → MapOrder) (instruction timestamp : String)
    (payload payload' : GoMap Value) (hwf : payload.WF) (hwf' : payload'.WF)
    (hp : ∀ kv ∈ payload, PlainEntry kv) (hp' : ∀ kv ∈ payload', PlainEntry kv)
    (hi : '&' ∉ instruction.data) (ht : '&' ∉ timestamp.data)
    (heq : signString ord instruction timestamp payload =
      signString ord' instruction timestamp payload') (k : String) (x : Value)
    (hx : GoMap.get? payload k = some x) : GoMap.get? payload' k = some x := by
  have hmem : (k, x) ∈ payload := (GoMap.get?_eq_some payload hwf k x).mp hx
  have hk : k ∈ payload.keys := List.mem_map_of_mem Prod.fst hmem
  obtain ⟨hk', hv⟩ := signString_keys_values ord ord' instruction timestamp payload payload'
    hwf hwf' hp hp' hi ht heq k
    ((signData_mem_keys ord instruction timestamp payload k).mpr (Or.inr (Or.inr (Or.inr hk))))
  have hk'' : k ∈ payload'.keys := by
    rcases (signData_mem_keys ord' instruction timestamp payload' k).mp hk' with h | h | h | h
    · exact absurd hk (not_mem_keys_of_plain payload hp k (Or.inr (Or.inr h)))
    · exact absurd hk (not_mem_keys_of_plain payload hp k (Or.inr (Or.inl h)))
    · exact absurd hk (not_mem_keys_of_plain payload hp k (Or.inl h))
    · exact h
  obtain ⟨⟨k', x'⟩, hx', rfl⟩ := List.mem_map.mp hk''
  rw [signData_get_of_mem ord instruction timestamp payload hwf hp k' x hmem,
    signData_get_of_mem ord' instruction timestamp payload' hwf' hp' k' x' hx'] at hv
  have hs := (hp (k', x) hmem).1
  have hs' := (hp' (k', x') hx').1
  have hxx : x = x' := by
    cases x <;> cases x' <;> simp_all [Value.isStr, convertValue]
  rw [hxx]
  exact (GoMap.get?_eq_some payload' hwf' k' x').mpr hx'

/-- C13, counterexample: the payloads `{"a": "1&b=2"}` and `{"a": "1", "b": "2"}` are different
and string-valued, and give the same signing string. -/
theorem signString_not_injective :
    ¬ List.Perm [("a", Value.str "1&b=2")] [("a", Value.str "1"), ("b", Value.str "2")] ∧
    signString sampleOrd "orderExecute" "1700000000000" [("a", Value.str "1&b=2")] =
      signString sampleOrd "orderExecute" "1700000000000"
        [("a", Value.str "1"), ("b", Value.str "2")] ∧
    signString sampleOrd "orderExecute" "1700000000000" [("a", Value.str "1&b=2")] =
      "a=1&b=2&instruction=orderExecute&timestamp=1700000000000&window=10000" := by
  refine ⟨fun h => ?_, by decide, by decide⟩
  have := h.length_eq
  simp at this

/-- C13, amended: for a fixed instruction and timestamp without `&`, two different payload maps
whose values are strings without `&` and whose keys have no `&`, no `=` and are none of
`instruction`, `timestamp`, `window`, give different signing strings, whatever the orders of the
`range` loops. -/
theorem signString_separates_plain (ord ord' : Nat → MapOrder) (instruction timestamp : String)
    (payload payload' : GoMap Value) (hwf : payload.WF) (hwf' : payload'.WF)
    (hp : ∀ kv ∈ payload, PlainEntry kv) (hp' : ∀ kv ∈ payload', PlainEntry kv)
    (hi : '&' ∉ instruction.data) (ht : '&' ∉ timestamp.data)
    (hne : ¬ payload.Perm payload') :
    signString ord instruction timestamp payload ≠
      signString ord' instruction timestamp payload' := by
  intro heq
  apply hne
  apply GoMap.perm_of_get?_eq payload payload' hwf hwf'
  intro k
  cases hx : GoMap.get? payload k with
  | some x =>
    exact (signString_get?_transfer ord ord' instruction timestamp payload payload' hwf hwf'
      hp hp' hi ht heq k x hx).symm
  | none =>
    cases hx' : GoMap.get? payload' k with
    | none => rfl
    | some x' =>
      have := signString_get?_transfer ord' ord instruction timestamp payload' payload hwf'
        hwf hp' hp hi ht heq.symm k x' hx'
      rw [hx] at this
      exact this

/-- Witness of C13, amended: changing the value of `symbol` changes the signing string. -/
theorem signString_separates_plain_witness :
    signString sampleOrd "orderCancelAll" "1700000000000" [("symbol", Value.str "SOL_USDC")] ≠
      signString (fun _ => MapOrder.reversed) "orderCancelAll" "1700000000000"
        [("symbol", Value.str "SOL_USDT")] :=
  signString_separates_plain sampleOrd (fun _ => MapOrder.reversed) "orderCancelAll"
    "1700000000000" [("symbol", Value.str "SOL_USDC")] [("symbol", Value.str "SOL_USDT")]
    (by decide) (by decide) (by decide) (by decide) (by decide) (by decide)
    (fun h => by
      have := h.mem_iff.mp (List.mem_singleton.mpr rfl)
      simp at this)

/-! ## The reshaped lists -/

theorem typeAssert_int (x : Option JSON) :
    typeAssert x .int32 = none ∧ typeAssert x .int64 = none ∧ typeAssert x .uint32 = none := by
  cases x with
  | none => exact ⟨rfl, rfl, rfl⟩
  | some v => cases v <;> exact ⟨rfl, rfl, rfl⟩

theorem reshapeRecord_eq_none (v : GoMap JSON) (fields : List (String × String × GoType))
    (name key : String) (t : GoType) (hmem : (name, key, t) ∈ fields)
    (ht : ∀ x, typeAssert x t = none) : reshapeRecord v fields = none := by
  induction fields with
  | nil => simp at hmem
  | cons f rest ih =>
    obtain ⟨n, k, t'⟩ := f
    rcases List.mem_cons.mp hmem with h | h
    · cases h
      simp only [reshapeRecord, ht]
    · simp only [reshapeRecord]
      cases typeAssert (GoMap.get? v k) t' with
      | none => rfl
      | some x => simp only [ih h]

theorem reshapeLoop_cons_eq_none (fields : List (String × String × GoType))
    (name key : String) (t : GoType) (hmem : (name, key, t) ∈ fields)
    (ht : ∀ x, typeAssert x t = none) (e : String × JSON) (entries : List (String × JSON))
    (rst : List (Option (GoMap JSON))) : reshapeLoop fields (e :: entries) rst = none := by
  obtain ⟨k, values⟩ := e
  simp only [reshapeLoop]
  cases assertMap values with
  | none => rfl
  | some v => simp only [reshapeRecord_eq_none v fields name key t hmem ht]

/-- C17 (the code departs from it): in `getRecentTrades`, `getHistoricalTrades`,
`getDepositeHistory`, `getWithdrawHistory`, `getOrderHistory` and `getTokenOpenAllOrders` the
reshaping loop panics on the first entry of every response that has one, because the record
literal asserts an integer type on a decoded JSON value; so `getRecentTrades` panics on a
response with one well-formed trade, while `getKLines` returns one record for one entry.  The
reshaping loop appends behind the `len(data)` nil entries that `make` has put in the list. -/
theorem reshaped_lists_depart :
    (∀ e entries rst, reshapeLoop tradeFields (e :: entries) rst = none) ∧
    (∀ e entries rst, reshapeLoop depositFields (e :: entries) rst = none) ∧
    (∀ e entries rst, reshapeLoop withdrawFields (e :: entries) rst = none) ∧
    (∀ e entries rst, reshapeLoop orderHistoryFields (e :: entries) rst = none) ∧
    (∀ e entries rst, reshapeLoop openOrderFields (e :: entries) rst = none) ∧
    (getRecentTrades sampleOrd (fun _ _ => .json oneTradeBody) [] "SOL_USDC" 10).1 = none ∧
    (getKLines sampleOrd (fun _ _ => .json oneKLineBody) []
        ⟨"SOL_USDC", "1m", 1704067200, 1704067260⟩).1 =
      some (some [some [("start", .str "2024-01-01 00:00:00"), ("open", .str "100"),
        ("high", .str "102"), ("low", .str "99"), ("close", .str "101"),
        ("end", .str "2024-01-01 00:01:00"), ("volume", .str "5"), ("trades", .str "7")]],
        none) ∧
    reshapeLoop [] [("0", .obj [])] (List.replicate 1 none) = some [none, some []] := by
  refine ⟨?_, ?_, ?_, ?_, ?_, rfl, rfl, rfl⟩
  · exact reshapeLoop_cons_eq_none tradeFields "id" "id" .int64 (by decide)
      (fun x => (typeAssert_int x).2.1)
  · exact reshapeLoop_cons_eq_none depositFields "id" "id" .int32 (by decide)
      (fun x => (typeAssert_int x).1)
  · exact reshapeLoop_cons_eq_none withdrawFields "id" "id" .int32 (by decide)
      (fun x => (typeAssert_int x).1)
  · exact reshapeLoop_cons_eq_none orderHistoryFields "timeInForce" "timeInForce" .int32
      (by decide) (fun x => (typeAssert_int x).1)
  · exact reshapeLoop_cons_eq_none openOrderFields "clientId" "clientId" .uint32 (by decide)
      (fun x => (typeAssert_int x).2.2)

end Backpack
